import Mathlib

/-!
Verification of the notification-producer core of the aitu-web-app repository.

The orchestration layer (`src/services/producer_service.rs` and
`src/services/data_service.rs`) is embedded directly from the source.
The model/comparator module (`models/*.rs`: `compare_courses`,
`compare_grades`, `compare_grades_overview`, `compare_deadlines`,
`sort_deadlines`, `sort_grades_overview`, `delete_past_courses`, the
notification body builders) is not part of the available sources, so those
functions are modelled from the specification, as marked on each definition.

Machine integers of the source (`i64`, `u64`) are modelled as `Nat`: the
pagination arithmetic only ever increments, and no claim depends on overflow.
Asynchronous effectful calls are modelled by explicit state passing: a pass
over one account threads a `Store` (the per-account persisted snapshot) and
accumulates a `List Event` recording, in order, every emitted notification,
every snapshot-overwrite call and every sub-pipeline entry.
-/

/-! ## Data model -/

/-- Modelled from the spec: a user profile, fully overwritten on update.
Only the fields the core reads (`userid` for provider calls, the whole value
for equality) are kept; `fullname` stands for the remaining payload. -/
structure User where
  userid : Nat
  fullname : String
deriving DecidableEq

/-- Modelled from the spec: a course with its id, display name and the
startDate/endDate-derived "past" flag. -/
structure Course where
  id : Nat
  fullname : String
  past : Bool
deriving DecidableEq

/-- Modelled from the spec: a grade entry; identity for comparison purposes is
the `(courseid, itemname)` key, `percentageformatted` is the compared payload,
`gradeitems` is the per-entry ordered item list whose length the defensive
resync check inspects, and `coursename` is the post-fetch annotation. -/
structure Grade where
  courseid : Nat
  coursename : Option String
  itemname : String
  percentageformatted : String
  gradeitems : List String
deriving DecidableEq

/-- Modelled from the spec: one aggregate grade-overview row per course. -/
structure GradeOverview where
  courseid : Nat
  course_name : Option String
  grade : String
deriving DecidableEq

/-- Modelled from the spec: a deadline; canonical order is by `dueAt`
ascending and comparison matches by the full `(coursename, title, dueAt)`
content key. -/
structure Deadline where
  coursename : Option String
  title : String
  dueAt : Nat
deriving DecidableEq

/-- Outbound push notification, as built by the producer service. -/
structure Notification where
  device_token : String
  title : String
  body : String
deriving DecidableEq

/-- Registered-account record: a token plus an optional device token
(`src/services/producer_service.rs`, `Token::new`). -/
structure Token where
  token : String
  device_token : Option String
deriving DecidableEq

/-! ## An executable total order on strings

The repository sorts overview rows by course name through the standard string
order; the claims only need the order to be total and transitive, so an
executable lexicographic order on the underlying character lists is used. -/

def lexLe : List Char → List Char → Bool
  | [], _ => true
  | _ :: _, [] => false
  | a :: as, b :: bs =>
    decide (a.toNat < b.toNat) || (decide (a.toNat = b.toNat) && lexLe as bs)

def strLe (a b : String) : Bool := lexLe a.toList b.toList

theorem lexLe_total (xs ys : List Char) : lexLe xs ys = true ∨ lexLe ys xs = true := by
  induction xs generalizing ys with
  | nil => exact Or.inl rfl
  | cons a as ih =>
    cases ys with
    | nil => exact Or.inr rfl
    | cons b bs =>
      simp only [lexLe, Bool.or_eq_true, Bool.and_eq_true, decide_eq_true_eq]
      rcases Nat.lt_trichotomy a.toNat b.toNat with h | h | h
      · exact Or.inl (Or.inl h)
      · rcases ih bs with h' | h'
        · exact Or.inl (Or.inr ⟨h, h'⟩)
        · exact Or.inr (Or.inr ⟨h.symm, h'⟩)
      · exact Or.inr (Or.inl h)

theorem lexLe_trans : ∀ {xs ys zs : List Char}, lexLe xs ys = true → lexLe ys zs = true →
    lexLe xs zs = true
  | [], _, _, _, _ => rfl
  | _ :: _, [], _, h1, _ => by simp [lexLe] at h1
  | _ :: _, _ :: _, [], _, h2 => by simp [lexLe] at h2
  | a :: as, b :: bs, c :: cs, h1, h2 => by
    simp only [lexLe, Bool.or_eq_true, Bool.and_eq_true, decide_eq_true_eq] at h1 h2 ⊢
    rcases h1 with h1 | ⟨hab, l1⟩
    · rcases h2 with h2 | ⟨hbc, _⟩
      · exact Or.inl (Nat.lt_trans h1 h2)
      · exact Or.inl (hbc ▸ h1)
    · rcases h2 with h2 | ⟨hbc, l2⟩
      · exact Or.inl (hab ▸ h2)
      · exact Or.inr ⟨hab.trans hbc, lexLe_trans l1 l2⟩

theorem strLe_total (a b : String) : strLe a b = true ∨ strLe b a = true :=
  lexLe_total a.toList b.toList

theorem strLe_trans {a b c : String} (h1 : strLe a b = true) (h2 : strLe b c = true) :
    strLe a c = true :=
  lexLe_trans h1 h2

/-! ## Canonical sorts (modelled from the spec) -/

/-- Order on overview rows: by course name ascending. -/
def ovLe (a b : GradeOverview) : Prop :=
  strLe (a.course_name.getD "") (b.course_name.getD "") = true

instance : DecidableRel ovLe := fun a b => by unfold ovLe; infer_instance

instance : IsTotal GradeOverview ovLe :=
  ⟨fun a b => strLe_total (a.course_name.getD "") (b.course_name.getD "")⟩

instance : IsTrans GradeOverview ovLe :=
  ⟨fun _ _ _ h1 h2 => strLe_trans h1 h2⟩

/-- Order on deadlines: by `dueAt` ascending. -/
def dlLe (a b : Deadline) : Prop := a.dueAt ≤ b.dueAt

instance : DecidableRel dlLe := fun a b => by unfold dlLe; infer_instance

instance : IsTotal Deadline dlLe := ⟨fun a b => Nat.le_total a.dueAt b.dueAt⟩

instance : IsTrans Deadline dlLe := ⟨fun _ _ _ h1 h2 => Nat.le_trans h1 h2⟩

/-- Modelled from the spec: `sort_grades_overview` from `models/grade.rs`
(missing from the sources) sorts overview rows by course name ascending. -/
def sort_grades_overview (l : List GradeOverview) : List GradeOverview :=
  l.insertionSort ovLe

/-- Modelled from the spec: `sort_deadlines` from `models/deadline.rs`
(missing from the sources) sorts deadlines canonically by `dueAt` ascending.
The source signature is fallible; the failure mode (date parsing) has no
representation in this data model, so the sort is total here. -/
def sort_deadlines (l : List Deadline) : List Deadline :=
  l.insertionSort dlLe

/-- Modelled from the spec: `Course::delete_past_courses` removes the past
courses, keeping the non-past subset. -/
def delete_past_courses (l : List Course) : List Course :=
  l.filter (fun c => !c.past)

/-! ## Comparators (modelled from the spec) -/

/-- Modelled from the spec: `compare_courses` from `models/course.rs`
(missing from the sources) returns the external courses whose id is absent
from the stored list's ids. -/
def compare_courses (external stored : List Course) : List Course :=
  external.filter (fun e => !(stored.any (fun s => s.id == e.id)))

/-- Placeholder stored-side grade paired with an external grade that has no
matching stored entry at all. -/
def emptyGrade (e : Grade) : Grade :=
  { courseid := e.courseid, coursename := none, itemname := e.itemname,
    percentageformatted := "-", gradeitems := [] }

/-- Per-element decision of the grade comparator: the first stored entry with
the external grade's `(courseid, itemname)` key is its counterpart; a
different `percentageformatted` (or no counterpart at all) reports the grade
as changed, paired with the counterpart (or a placeholder). -/
def gradeDiffAt (stored : List Grade) (e : Grade) : Option (Grade × Grade) :=
  match stored.find? (fun s => s.courseid == e.courseid && s.itemname == e.itemname) with
  | some s => if s.percentageformatted == e.percentageformatted then none else some (e, s)
  | none => some (e, emptyGrade e)

/-- Modelled from the spec: `compare_grades` from `models/grade.rs` (missing
from the sources) reports a grade as changed iff its `(courseid, itemname)`
key matches a stored entry with a different `percentageformatted`, or has no
matching stored entry at all; each reported grade is paired with the matching
stored entry (a placeholder when there is none), the pair the caller reads the
old and new percentage from. -/
def compare_grades (external stored : List Grade) : List (Grade × Grade) :=
  external.filterMap (gradeDiffAt stored)

/-- Modelled from the spec: `compare_grades_overview` from `models/grade.rs`
(missing from the sources) compares by `courseid` and returns every external
row absent from, or different from, its stored counterpart. -/
def compare_grades_overview (external stored : List GradeOverview) : List GradeOverview :=
  external.filter (fun e =>
    match stored.find? (fun s => s.courseid == e.courseid) with
    | some s => !(s == e)
    | none => true)

/-- Modelled from the spec: `compare_deadlines` from `models/deadline.rs`
(missing from the sources) returns every external deadline whose
`(coursename, title, dueAt)` content key matches no stored deadline. -/
def compare_deadlines (external stored : List Deadline) : List Deadline :=
  external.filter (fun e => !(stored.any (fun s =>
    s.coursename == e.coursename && s.title == e.title && s.dueAt == e.dueAt)))

/-- Modelled from the spec: the notification body describing a freshly
fetched user profile (`User::create_body_message_user`, missing from the
sources). -/
def create_body_message_user (u : User) : String :=
  "New user info | " ++ u.fullname

/-- Modelled from the spec: the notification body a deadline builds for
itself (`Deadline::create_body_message_deadline`, missing from the
sources). -/
def create_body_message_deadline (d : Deadline) : String :=
  d.title ++ " | " ++ d.coursename.getD ""

/-! ## Collaborators: provider, store, errors, events -/

/-- Error taxonomy of `src/services/errors.rs`, as described by the spec and
used by `data_service.rs` (`InvalidToken` from `update_user`, `DataIsEmpty`
matched in `produce_deadline`). Payload strings are dropped. -/
inductive ServiceError where
  | DataIsEmpty
  | InvalidToken
  | ProviderError
  | AlreadyExists
deriving DecidableEq

/-- Read-only external LMS access for one account
(`DataProviderInterface`). A field holds the (unchanging within a pass)
response of the corresponding provider call. -/
structure Provider where
  valid_token : Except ServiceError Unit
  get_user : Except ServiceError User
  get_courses : Nat → Except ServiceError (List Course)
  get_grades_by_course_id : Nat → Nat → Except ServiceError (List Grade)
  get_grades_overview : Except ServiceError (List GradeOverview)
  get_deadline_by_course_id : Nat → Except ServiceError (List Deadline)

/-- Persisted snapshot state for one account: at most one current value per
resource kind, plus the token-registry membership used by registration. -/
structure Store where
  registered : Bool
  user : Option User
  courses : Option (List Course)
  grades : Option (List Grade)
  grades_overview : Option (List GradeOverview)
  deadlines : Option (List Deadline)
deriving DecidableEq

/-- Snapshot-overwrite kinds, one per `update_*` operation of the data
service. -/
inductive Upd where
  | user
  | courses
  | grades
  | gradesOverview
  | deadlines
deriving DecidableEq

/-- Sub-pipeline markers recorded when the dispatcher enters a
sub-pipeline. -/
inductive SubPipe where
  | userInfo
  | course
  | grade
  | gradeOverview
  | deadline
deriving DecidableEq

/-- Observable effects of a pass, in order: emitted notifications,
snapshot-overwrite calls and sub-pipeline entries. -/
inductive Event where
  | notif (n : Notification)
  | upd (u : Upd)
  | ran (p : SubPipe)
deriving DecidableEq

def notifsOf (ev : List Event) : List Notification :=
  ev.filterMap (fun e => match e with | .notif n => some n | _ => none)

def updsOf (ev : List Event) : List Upd :=
  ev.filterMap (fun e => match e with | .upd u => some u | _ => none)

/-! ## Data service (`src/services/data_service.rs`) -/

/-- Stored-snapshot read (`find_user_by_token` behind `get_user`): a missing
document is the explicit "no data yet" condition. -/
def get_user (s : Store) : Except ServiceError User :=
  match s.user with
  | some u => .ok u
  | none => .error .DataIsEmpty

def get_courses (s : Store) : Except ServiceError (List Course) :=
  match s.courses with
  | some cs => .ok cs
  | none => .error .DataIsEmpty

def get_grades (s : Store) : Except ServiceError (List Grade) :=
  match s.grades with
  | some gs => .ok gs
  | none => .error .DataIsEmpty

def get_grades_overview (s : Store) : Except ServiceError (List GradeOverview) :=
  match s.grades_overview with
  | some ov => .ok ov
  | none => .error .DataIsEmpty

def get_deadlines (s : Store) : Except ServiceError (List Deadline) :=
  match s.deadlines with
  | some ds => .ok ds
  | none => .error .DataIsEmpty

/-- Post-fetch course-name annotation applied by `fetch_grades`. -/
def tagGrades (c : Course) (gs : List Grade) : List Grade :=
  gs.map (fun g => { g with coursename := some c.fullname })

/-- Post-fetch course-name annotation applied to deadlines. -/
def tagDeadlines (c : Course) (ds : List Deadline) : List Deadline :=
  ds.map (fun d => { d with coursename := some c.fullname })

/-- DataService::fetch_grades: per course, fetch the external grades and tag
each with the owning course's display name, concatenating in course order. -/
def fetch_grades (P : Provider) (user : User) : List Course → Except ServiceError (List Grade)
  | [] => .ok []
  | c :: rest =>
    match P.get_grades_by_course_id user.userid c.id with
    | .error e => .error e
    | .ok egs =>
      match fetch_grades P user rest with
      | .error e => .error e
      | .ok gs => .ok (tagGrades c egs ++ gs)

/-- DataService::update_user: refetch the external profile and overwrite the
stored one; a provider failure surfaces as `InvalidToken`. -/
def update_user (P : Provider) (s : Store) : Except ServiceError User × Store :=
  match P.get_user with
  | .ok u => (.ok u, { s with user := some u })
  | .error _ => (.error .InvalidToken, s)

/-- DataService::update_courses: refetch the external course list and
overwrite the stored one. -/
def update_courses (P : Provider) (user : User) (s : Store) :
    Except ServiceError (List Course) × Store :=
  match P.get_courses user.userid with
  | .ok cs => (.ok cs, { s with courses := some cs })
  | .error e => (.error e, s)

/-- DataService::update_grades: fetch-from-provider-then-overwrite for the
grade list. -/
def update_grades (P : Provider) (user : User) (courses : List Course) (s : Store) :
    Except ServiceError Unit × Store :=
  match fetch_grades P user courses with
  | .error e => (.error e, s)
  | .ok gs => (.ok (), { s with grades := some gs })

/-- Course-name annotation of overview rows: the first course whose id
matches the row sets the name, rows without a matching course are kept
unchanged (`fetch_grades_overview`'s inner loop with `break`). -/
def annotate_overview (courses : List Course) (rows : List GradeOverview) :
    List GradeOverview :=
  rows.map (fun r =>
    match courses.find? (fun c => c.id == r.courseid) with
    | some c => { r with course_name := some c.fullname }
    | none => r)

/-- DataService::fetch_grades_overview: fetch the external overview, annotate
each row with its course's display name and sort by course name. -/
def fetch_grades_overview (P : Provider) (courses : List Course) :
    Except ServiceError (List GradeOverview) :=
  match P.get_grades_overview with
  | .error e => .error e
  | .ok rows => .ok (sort_grades_overview (annotate_overview courses rows))

/-- DataService::update_grades_overview: fetch-then-overwrite for the
overview. -/
def update_grades_overview (P : Provider) (courses : List Course) (s : Store) :
    Except ServiceError Unit × Store :=
  match fetch_grades_overview P courses with
  | .error e => (.error e, s)
  | .ok ov => (.ok (), { s with grades_overview := some ov })

/-- Collect-and-tag part of `fetch_deadlines`, in course order. -/
def collect_deadlines (P : Provider) : List Course → Except ServiceError (List Deadline)
  | [] => .ok []
  | c :: rest =>
    match P.get_deadline_by_course_id c.id with
    | .error e => .error e
    | .ok eds =>
      match collect_deadlines P rest with
      | .error e => .error e
      | .ok ds => .ok (tagDeadlines c eds ++ ds)

/-- DataService::fetch_deadlines: per course fetch and tag, then sort the
whole list canonically. -/
def fetch_deadlines (P : Provider) (courses : List Course) :
    Except ServiceError (List Deadline) :=
  match collect_deadlines P courses with
  | .error e => .error e
  | .ok ds => .ok (sort_deadlines ds)

/-- DataService::update_deadlines: fetch-then-overwrite for deadlines. -/
def update_deadlines (P : Provider) (courses : List Course) (s : Store) :
    Except ServiceError Unit × Store :=
  match fetch_deadlines P courses with
  | .error e => (.error e, s)
  | .ok ds => (.ok (), { s with deadlines := some ds })

/-- DataService::fetch_and_update_data: the notification-free resync path for
an account without a device token; each step's error aborts the rest. -/
def fetch_and_update_data (P : Provider) (s : Store) :
    Except ServiceError Unit × Store × List Event :=
  let r1 := update_user P s
  match r1.1 with
  | .error e => (.error e, r1.2, [.upd .user])
  | .ok user =>
    let r2 := update_courses P user r1.2
    match r2.1 with
    | .error e => (.error e, r2.2, [.upd .user, .upd .courses])
    | .ok courses =>
      let r3 := update_grades P user courses r2.2
      match r3.1 with
      | .error e => (.error e, r3.2, [.upd .user, .upd .courses, .upd .grades])
      | .ok _ =>
        let r4 := update_grades_overview P courses r3.2
        match r4.1 with
        | .error e =>
          (.error e, r4.2, [.upd .user, .upd .courses, .upd .grades, .upd .gradesOverview])
        | .ok _ =>
          let r5 := update_deadlines P courses r4.2
          match r5.1 with
          | .error e =>
            (.error e, r5.2,
              [.upd .user, .upd .courses, .upd .grades, .upd .gradesOverview, .upd .deadlines])
          | .ok _ =>
            (.ok (), r5.2,
              [.upd .user, .upd .courses, .upd .grades, .upd .gradesOverview, .upd .deadlines])

/-- DataService::register_user: validate the token, run the duplicate-token
check, fetch user, courses, grades, deadlines and overview from the provider,
and only then persist everything. The duplicate check's repository
implementation is absent from the sources; modelled from the spec:
registration fails with a conflict when the token is already registered.
The saves are modelled as infallible state writes. -/
def register_user (P : Provider) (s : Store) : Except ServiceError Unit × Store :=
  match P.valid_token with
  | .error _ => (.error .ProviderError, s)
  | .ok _ =>
    if s.registered then (.error .AlreadyExists, s)
    else
      match P.get_user with
      | .error e => (.error e, s)
      | .ok user =>
        match P.get_courses user.userid with
        | .error e => (.error e, s)
        | .ok courses =>
          match fetch_grades P user courses with
          | .error e => (.error e, s)
          | .ok grades =>
            match fetch_deadlines P courses with
            | .error e => (.error e, s)
            | .ok deadlines =>
              match fetch_grades_overview P courses with
              | .error e => (.error e, s)
              | .ok overview =>
                (.ok (), { s with
                            registered := true
                            user := some user
                            courses := some courses
                            grades := some grades
                            grades_overview := some overview
                            deadlines := some deadlines })

/-! ## Producer service (`src/services/producer_service.rs`) -/

/-- ProducerService::produce_user_info: fetch the external profile, fetch the
stored one, and when they differ emit one notification and overwrite the
stored profile; the external profile is returned either way. -/
def produce_user_info (P : Provider) (device_token : String) (s : Store) :
    Except ServiceError User × Store × List Event :=
  match P.get_user with
  | .error e => (.error e, s, [])
  | .ok external_user =>
    match get_user s with
    | .error e => (.error e, s, [])
    | .ok user =>
      if user = external_user then (.ok external_user, s, [])
      else
        let n : Notification :=
          { device_token := device_token
            title := "New user info"
            body := create_body_message_user external_user }
        let r := update_user P s
        match r.1 with
        | .error e => (.error e, r.2, [.notif n, .upd .user])
        | .ok _ => (.ok external_user, r.2, [.notif n, .upd .user])

/-- ProducerService::produce_course: diff the external course list against the
stored one, emit one notification per new course, overwrite the stored list
when anything was new, and return the full external list. -/
def produce_course (P : Provider) (device_token : String) (user : User) (s : Store) :
    Except ServiceError (List Course) × Store × List Event :=
  match P.get_courses user.userid with
  | .error e => (.error e, s, [])
  | .ok external_courses =>
    match get_courses s with
    | .error e => (.error e, s, [])
    | .ok courses =>
      let new_courses := compare_courses external_courses courses
      let notifs := new_courses.map (fun c => Event.notif
        { device_token := device_token, title := "New course", body := c.fullname })
      if new_courses.isEmpty then (.ok external_courses, s, notifs)
      else
        let r := update_courses P user s
        match r.1 with
        | .error e => (.error e, r.2, notifs ++ [.upd .courses])
        | .ok _ => (.ok external_courses, r.2, notifs ++ [.upd .courses])

/-- Inner defensive loop of `produce_grade` for one external grade: for every
stored grade with the same course id but a different `gradeitems` count, force
an unconditional grade resync. -/
def grade_mismatch_inner (P : Provider) (user : User) (all_courses : List Course)
    (e : Grade) : List Grade → Store → Except ServiceError Unit × Store × List Event
  | [], s => (.ok (), s, [])
  | g :: rest, s =>
    if e.courseid = g.courseid ∧ e.gradeitems.length ≠ g.gradeitems.length then
      let u := update_grades P user all_courses s
      match u.1 with
      | .error er => (.error er, u.2, [.upd .grades])
      | .ok _ =>
        let r := grade_mismatch_inner P user all_courses e rest u.2
        (r.1, r.2.1, .upd .grades :: r.2.2)
    else grade_mismatch_inner P user all_courses e rest s

/-- Outer defensive loop of `produce_grade` over the external grades of one
course. -/
def grade_mismatch_loop (P : Provider) (user : User) (all_courses : List Course) :
    List Grade → List Grade → Store → Except ServiceError Unit × Store × List Event
  | [], _, s => (.ok (), s, [])
  | e :: rest, grades, s =>
    let ri := grade_mismatch_inner P user all_courses e grades s
    match ri.1 with
    | .error er => (.error er, ri.2.1, ri.2.2)
    | .ok _ =>
      let r := grade_mismatch_loop P user all_courses rest grades ri.2.1
      (r.1, r.2.1, ri.2.2 ++ r.2.2)

/-- Per-course loop of `produce_grade`: fetch and tag the external grades,
re-read the stored grades, run the defensive count check, diff, and emit one
notification per changed grade; `flag` records whether any course produced a
non-empty diff. -/
def grade_course_loop (P : Provider) (dt : String) (user : User)
    (all_courses : List Course) :
    List Course → Store → Bool → Except ServiceError Unit × Store × List Event × Bool
  | [], s, flag => (.ok (), s, [], flag)
  | c :: rest, s, flag =>
    match P.get_grades_by_course_id user.userid c.id with
    | .error e => (.error e, s, [], flag)
    | .ok egs =>
      let ext := tagGrades c egs
      match get_grades s with
      | .error e => (.error e, s, [], flag)
      | .ok grades =>
        let rm := grade_mismatch_loop P user all_courses ext grades s
        match rm.1 with
        | .error e => (.error e, rm.2.1, rm.2.2, flag)
        | .ok _ =>
          let new_grades := compare_grades ext grades
          let notifs := new_grades.map (fun ng => Event.notif
            { device_token := dt
              title := c.fullname
              body := "New grade | " ++ ng.1.itemname ++ "\n" ++
                ng.2.percentageformatted ++ " -> " ++ ng.1.percentageformatted })
          let r := grade_course_loop P dt user all_courses rest rm.2.1
            (flag || !new_grades.isEmpty)
          (r.1, r.2.1, rm.2.2 ++ notifs ++ r.2.2.1, r.2.2.2)

/-- ProducerService::produce_grade: read the stored grades, force a resync
when some course id is unrepresented there, then run the per-course loop and
finally overwrite the stored grades when any diff was non-empty. -/
def produce_grade (P : Provider) (dt : String) (user : User) (courses : List Course)
    (s : Store) : Except ServiceError Unit × Store × List Event :=
  match get_grades s with
  | .error e => (.error e, s, [])
  | .ok past_grades =>
    let all_in := courses.all (fun c => past_grades.any (fun g => g.courseid == c.id))
    let step1 : Except ServiceError Unit × Store × List Event :=
      if all_in then (.ok (), s, [])
      else
        let u := update_grades P user courses s
        match u.1 with
        | .error e => (.error e, u.2, [.upd .grades])
        | .ok _ => (.ok (), u.2, [.upd .grades])
    match step1.1 with
    | .error e => (.error e, step1.2.1, step1.2.2)
    | .ok _ =>
      let rl := grade_course_loop P dt user courses courses step1.2.1 false
      match rl.1 with
      | .error e => (.error e, rl.2.1, step1.2.2 ++ rl.2.2.1)
      | .ok _ =>
        if rl.2.2.2 then
          let u := update_grades P user courses rl.2.1
          match u.1 with
          | .error e => (.error e, u.2, step1.2.2 ++ rl.2.2.1 ++ [.upd .grades])
          | .ok _ => (.ok (), u.2, step1.2.2 ++ rl.2.2.1 ++ [.upd .grades])
        else (.ok (), rl.2.1, step1.2.2 ++ rl.2.2.1)

/-- ProducerService::produce_grade_overview: recompute the external overview,
sort the stored one identically, diff by course id, emit one notification per
new row and overwrite the stored overview when anything was new. -/
def produce_grade_overview (P : Provider) (dt : String) (courses : List Course)
    (s : Store) : Except ServiceError Unit × Store × List Event :=
  match fetch_grades_overview P courses with
  | .error e => (.error e, s, [])
  | .ok external_overview =>
    match get_grades_overview s with
    | .error e => (.error e, s, [])
    | .ok stored =>
      let new_rows := compare_grades_overview external_overview (sort_grades_overview stored)
      let notifs := new_rows.map (fun r => Event.notif
        { device_token := dt
          title := r.course_name.getD "-"
          body := "New course total grade | " ++ r.grade })
      if new_rows.isEmpty then (.ok (), s, [])
      else
        let r := update_grades_overview P courses s
        match r.1 with
        | .error e => (.error e, r.2, notifs ++ [.upd .gradesOverview])
        | .ok _ => (.ok (), r.2, notifs ++ [.upd .gradesOverview])

/-- Stored-deadline read of `produce_deadline`: the explicit `DataIsEmpty`
condition is turned into an empty list, any other error propagates. -/
def read_stored_deadlines (s : Store) : Except ServiceError (List Deadline) :=
  match get_deadlines s with
  | .ok d => .ok d
  | .error .DataIsEmpty => .ok []
  | .error e => .error e

theorem read_stored_deadlines_eq (s : Store) :
    read_stored_deadlines s = .ok (s.deadlines.getD []) := by
  cases h : s.deadlines <;> simp [read_stored_deadlines, get_deadlines, h]

/-- Per-course loop of `produce_deadline`: re-read the stored deadlines
(treating the explicit "no data yet" condition as an empty list), fetch the
external deadlines, skip the course when that list is empty, otherwise tag,
sort, diff and emit one notification per new deadline. -/
def deadline_course_loop (P : Provider) (dt : String) :
    List Course → Store → Bool → Except ServiceError Unit × Store × List Event × Bool
  | [], s, flag => (.ok (), s, [], flag)
  | c :: rest, s, flag =>
    match read_stored_deadlines s with
    | .error e => (.error e, s, [], flag)
    | .ok deadlines =>
      match P.get_deadline_by_course_id c.id with
      | .error e => (.error e, s, [], flag)
      | .ok external_deadlines =>
        if external_deadlines.isEmpty then deadline_course_loop P dt rest s flag
        else
          let sorted := sort_deadlines (tagDeadlines c external_deadlines)
          let new_deadlines := compare_deadlines sorted deadlines
          let notifs := new_deadlines.map (fun d => Event.notif
            { device_token := dt
              title := "New deadline"
              body := create_body_message_deadline d })
          let r := deadline_course_loop P dt rest s (flag || !new_deadlines.isEmpty)
          (r.1, r.2.1, notifs ++ r.2.2.1, r.2.2.2)

/-- ProducerService::produce_deadline: run the per-course loop over the
(already past-filtered) course list, then overwrite the stored deadline list
iff at least one new deadline was found in at least one course. -/
def produce_deadline (P : Provider) (dt : String) (courses : List Course) (s : Store) :
    Except ServiceError Unit × Store × List Event :=
  let rl := deadline_course_loop P dt courses s false
  match rl.1 with
  | .error e => (.error e, rl.2.1, rl.2.2.1)
  | .ok _ =>
    if rl.2.2.2 then
      let u := update_deadlines P courses rl.2.1
      match u.1 with
      | .error e => (.error e, u.2, rl.2.2.1 ++ [.upd .deadlines])
      | .ok _ => (.ok (), u.2, rl.2.2.1 ++ [.upd .deadlines])
    else (.ok (), rl.2.1, rl.2.2.1)

/-- Outcome of one per-account pass of the dispatcher: the final store, the
ordered effect log and one success flag per sub-pipeline. -/
structure PassResult where
  store : Store
  events : List Event
  userOk : Bool
  courseOk : Bool
  gradeOk : Bool
  overviewOk : Bool
  deadlineOk : Bool
deriving DecidableEq

def exOk {ε α : Type} : Except ε α → Bool
  | .ok _ => true
  | .error _ => false

/-- ProducerService::process_producing: drive the five sub-pipelines in their
fixed order; a user or course failure stops the account's remaining
sub-pipelines, while grade, overview and deadline failures are each caught
and logged so the siblings still run; past courses are dropped between the
overview and deadline stages. -/
def process_producing (P : Provider) (dt : String) (s : Store) : PassResult :=
  let r1 := produce_user_info P dt s
  match r1.1 with
  | .error _ =>
    { store := r1.2.1
      events := .ran .userInfo :: r1.2.2
      userOk := false, courseOk := false, gradeOk := false
      overviewOk := false, deadlineOk := false }
  | .ok user =>
    let r2 := produce_course P dt user r1.2.1
    match r2.1 with
    | .error _ =>
      { store := r2.2.1
        events := .ran .userInfo :: r1.2.2 ++ .ran .course :: r2.2.2
        userOk := true, courseOk := false, gradeOk := false
        overviewOk := false, deadlineOk := false }
    | .ok courses =>
      let r3 := produce_grade P dt user courses r2.2.1
      let r4 := produce_grade_overview P dt courses r3.2.1
      let r5 := produce_deadline P dt (delete_past_courses courses) r4.2.1
      { store := r5.2.1
        events := .ran .userInfo :: r1.2.2 ++ .ran .course :: r2.2.2 ++
          .ran .grade :: r3.2.2 ++ .ran .gradeOverview :: r4.2.2 ++ .ran .deadline :: r5.2.2
        userOk := true, courseOk := true, gradeOk := exOk r3.1
        overviewOk := exOk r4.1, deadlineOk := exOk r5.1 }

/-- Per-token provider and store environment used by batch processing. -/
def setStore (g : String → Store) (t : String) (s : Store) : String → Store :=
  fun x => if x = t then s else g x

/-- ProducerService::process_batch: process the accounts in order; an account
with a device token goes through `process_producing` (whose result is always
`Ok`), an account without one goes through the notification-free resync whose
error propagates and aborts the rest of the batch. Besides the effect log,
the list of tokens the loop actually reached is returned, in order. -/
def process_batch (env : String → Provider) :
    List Token → (String → Store) →
    Except ServiceError Unit × (String → Store) × List Event × List String
  | [], g => (.ok (), g, [], [])
  | t :: rest, g =>
    match t.device_token with
    | some dt =>
      let r := process_producing (env t.token) dt (g t.token)
      let b := process_batch env rest (setStore g t.token r.store)
      (b.1, b.2.1, r.events ++ b.2.2.1, t.token :: b.2.2.2)
    | none =>
      let f := fetch_and_update_data (env t.token) (g t.token)
      match f.1 with
      | .error e => (.error e, setStore g t.token f.2.1, f.2.2, [t.token])
      | .ok _ =>
        let b := process_batch env rest (setStore g t.token f.2.1)
        (b.1, b.2.1, f.2.2 ++ b.2.2.1, t.token :: b.2.2.2)

/-- Registry document of the token collection: an optional string `_id` (the
account token) and an optional device token, mirroring the two `get_str`
probes of `get_batches`. -/
structure Doc where
  id : Option String
  device_token : Option String
deriving DecidableEq

/-- Cursor drain of `get_batches`: build the batch from the docs that carry a
string `_id`, counting one skip-increment per such doc. -/
def buildBatch : List Doc → List Token × Nat
  | [] => ([], 0)
  | d :: ds =>
    let (b, n) := buildBatch ds
    match d.id with
    | some t => ({ token := t, device_token := d.device_token } :: b, n + 1)
    | none => (b, n)

/-- Outcome of one `get_batches` invocation: the (always `Ok`) result, the
new caller-owned offset, the updated stores, the effect log, and the batch
that was handed to `process_batch`, when any. -/
structure GetBatchesResult where
  res : Except ServiceError Unit
  skip : Nat
  stores : String → Store
  events : List Event
  processedBatch : Option (List Token)

/-- ProducerService::get_batches: drain up to `limit` registry docs starting
at the caller's offset, incrementing the offset per account; when the cursor
yields nothing reset the offset to 0 and return without processing, otherwise
hand the batch to `process_batch`, swallowing its error. -/
def get_batches (env : String → Provider) (registry : List Doc) (limit : Nat)
    (skip : Nat) (g : String → Store) : GetBatchesResult :=
  let page := (registry.drop skip).take limit
  let bb := buildBatch page
  if page.isEmpty then
    { res := .ok (), skip := 0, stores := g, events := [], processedBatch := none }
  else
    let b := process_batch env bb.1 g
    { res := .ok (), skip := skip + bb.2, stores := b.2.1, events := b.2.2.1,
      processedBatch := some bb.1 }

/-! ## Generic helper lemmas -/

theorem notifsOf_append (a b : List Event) : notifsOf (a ++ b) = notifsOf a ++ notifsOf b := by
  simp [notifsOf]

theorem updsOf_append (a b : List Event) : updsOf (a ++ b) = updsOf a ++ updsOf b := by
  simp [updsOf]

theorem notifsOf_cons_notif (n : Notification) (ev : List Event) :
    notifsOf (.notif n :: ev) = n :: notifsOf ev := rfl

theorem notifsOf_cons_upd (u : Upd) (ev : List Event) :
    notifsOf (.upd u :: ev) = notifsOf ev := rfl

theorem notifsOf_cons_ran (p : SubPipe) (ev : List Event) :
    notifsOf (.ran p :: ev) = notifsOf ev := rfl

theorem updsOf_cons_notif (n : Notification) (ev : List Event) :
    updsOf (.notif n :: ev) = updsOf ev := rfl

theorem updsOf_cons_upd (u : Upd) (ev : List Event) :
    updsOf (.upd u :: ev) = u :: updsOf ev := rfl

theorem updsOf_cons_ran (p : SubPipe) (ev : List Event) :
    updsOf (.ran p :: ev) = updsOf ev := rfl

/-- All-ok provider with pure response functions, used to express "external
state unchanged across passes": the same `mkProvider` value answers every call
of both passes identically and never fails. -/
def mkProvider (u : User) (ecs : List Course) (egr : Nat → List Grade)
    (eov : List GradeOverview) (edl : Nat → List Deadline) : Provider :=
  { valid_token := .ok ()
    get_user := .ok u
    get_courses := fun _ => .ok ecs
    get_grades_by_course_id := fun _ cid => .ok (egr cid)
    get_grades_overview := .ok eov
    get_deadline_by_course_id := fun cid => .ok (edl cid) }

/-- Key uniqueness turns `find?` by the `(courseid, itemname)` key into
lookup of the member itself. -/
theorem find?_grade_key (cid : Nat) (iname : String) (e : Grade) :
    ∀ l : List Grade, ((l.map (fun g => (g.courseid, g.itemname))).Nodup) →
      e ∈ l → e.courseid = cid → e.itemname = iname →
      l.find? (fun s => s.courseid == cid && s.itemname == iname) = some e := by
  intro l
  induction l with
  | nil => intro _ he; cases he
  | cons x xs ih =>
    intro hnd he h1 h2
    rw [List.map_cons, List.nodup_cons] at hnd
    rcases List.mem_cons.mp he with rfl | he'
    · exact List.find?_cons_of_pos _ (by simp [h1, h2])
    · by_cases hx : (x.courseid == cid && x.itemname == iname) = true
      · exfalso
        apply hnd.1
        have hxe : (x.courseid, x.itemname) = (e.courseid, e.itemname) := by
          simp only [Bool.and_eq_true, beq_iff_eq] at hx
          simp [hx.1, hx.2, h1, h2]
        rw [hxe]
        exact List.mem_map_of_mem _ he'
      · rw [List.find?_cons_of_neg _ (by simpa using hx)]
        exact ih hnd.2 he' h1 h2

/-- Key uniqueness turns `find?` by course id into lookup of the member
itself, for overview rows. -/
theorem find?_overview_key (cid : Nat) (e : GradeOverview) :
    ∀ l : List GradeOverview, ((l.map GradeOverview.courseid).Nodup) →
      e ∈ l → e.courseid = cid →
      l.find? (fun s => s.courseid == cid) = some e := by
  intro l
  induction l with
  | nil => intro _ he; cases he
  | cons x xs ih =>
    intro hnd he h1
    rw [List.map_cons, List.nodup_cons] at hnd
    rcases List.mem_cons.mp he with rfl | he'
    · exact List.find?_cons_of_pos _ (by simp [h1])
    · by_cases hx : (x.courseid == cid) = true
      · exfalso
        apply hnd.1
        have hxe : x.courseid = e.courseid := by
          simp only [beq_iff_eq] at hx
          rw [hx, h1]
        rw [hxe]
        exact List.mem_map_of_mem _ he'
      · rw [List.find?_cons_of_neg _ (by simpa using hx)]
        exact ih hnd.2 he' h1

/-- A grade diff is empty whenever every external entry finds itself as the
first stored entry with its key. -/
theorem compare_grades_nil {ext stored : List Grade}
    (h : ∀ e ∈ ext,
      stored.find? (fun s => s.courseid == e.courseid && s.itemname == e.itemname) = some e) :
    compare_grades ext stored = [] := by
  rw [compare_grades, List.filterMap_eq_nil_iff]
  intro e he
  simp [gradeDiffAt, h e he]

/-- An overview diff of a keyed-`Nodup` list against itself is empty. -/
theorem compare_grades_overview_self {l : List GradeOverview}
    (h : (l.map GradeOverview.courseid).Nodup) :
    compare_grades_overview l l = [] := by
  rw [compare_grades_overview, List.filter_eq_nil_iff]
  intro e he
  rw [find?_overview_key e.courseid e l h he rfl]
  simp

/-- A deadline diff against a superset is empty. -/
theorem compare_deadlines_nil {ext stored : List Deadline}
    (h : ∀ e ∈ ext, e ∈ stored) :
    compare_deadlines ext stored = [] := by
  rw [compare_deadlines, List.filter_eq_nil_iff]
  intro e he
  have hany : stored.any (fun s =>
      s.coursename == e.coursename && s.title == e.title && s.dueAt == e.dueAt) = true := by
    rw [List.any_eq_true]
    exact ⟨e, h e he, by simp⟩
  simp [hany]

/-- A course diff of a list against itself is empty. -/
theorem compare_courses_self (l : List Course) : compare_courses l l = [] := by
  rw [compare_courses, List.filter_eq_nil_iff]
  intro e he
  have hany : l.any (fun s => s.id == e.id) = true := by
    rw [List.any_eq_true]
    exact ⟨e, he, by simp⟩
  simp [hany]

/-! ## Shared concrete fixtures for witnesses and counterexamples -/

def wUser : User := { userid := 7, fullname := "W User" }

def wCourse : Course := { id := 1, fullname := "Algebra", past := false }

def emptyStore : Store :=
  { registered := false, user := none, courses := none, grades := none,
    grades_overview := none, deadlines := none }

/-- Provider whose every call fails. -/
def wProviderBad : Provider :=
  { valid_token := .error .ProviderError
    get_user := .error .ProviderError
    get_courses := fun _ => .error .ProviderError
    get_grades_by_course_id := fun _ _ => .error .ProviderError
    get_grades_overview := .error .ProviderError
    get_deadline_by_course_id := fun _ => .error .ProviderError }

/-! ## C10 — registration performs no store write on a pre-save error -/

/-- C10: every error `register_user` can return arises from token validation,
the duplicate-token check or a provider fetch, and all of those precede the
first save, so an erroring registration leaves the store exactly as it was. -/
theorem register_user_error_leaves_store (P : Provider) (s : Store) (e : ServiceError)
    (h : (register_user P s).1 = .error e) : (register_user P s).2 = s := by
  have h2 : (register_user P s).1 = .ok () ∨ (register_user P s).2 = s := by
    unfold register_user
    repeat' split
    all_goals simp
  rcases h2 with h2 | h2
  · rw [h] at h2
    cases h2
  · exact h2

/-- Witness for C10 at a concrete failing provider. -/
theorem register_user_error_leaves_store_witness :
    (register_user wProviderBad emptyStore).1 = .error .ProviderError ∧
    (register_user wProviderBad emptyStore).2 = emptyStore :=
  ⟨rfl, register_user_error_leaves_store wProviderBad emptyStore .ProviderError rfl⟩

/-! ## C8 — token-cursor wrap-around -/

/-- C8: when the cursor page is empty, `get_batches` resets the caller's
offset to 0 and returns `Ok` without handing anything to `process_batch`;
when the page is non-empty the offset instead advances by one per account
document and the batch is processed. -/
theorem get_batches_cursor_spec (env : String → Provider) (registry : List Doc)
    (limit skip : Nat) (g : String → Store) :
    ((registry.drop skip).take limit = [] →
      (get_batches env registry limit skip g).skip = 0 ∧
      (get_batches env registry limit skip g).processedBatch = none ∧
      (get_batches env registry limit skip g).res = .ok ()) ∧
    ((registry.drop skip).take limit ≠ [] →
      (get_batches env registry limit skip g).skip =
        skip + (buildBatch ((registry.drop skip).take limit)).2 ∧
      (get_batches env registry limit skip g).processedBatch =
        some (buildBatch ((registry.drop skip).take limit)).1 ∧
      (get_batches env registry limit skip g).res = .ok ()) := by
  constructor
  · intro hp
    simp [get_batches, hp]
  · intro hp
    have hne : ((registry.drop skip).take limit).isEmpty = false := by
      simpa [List.isEmpty_iff] using hp
    simp [get_batches, hne]

/-- Witness for C8: a two-doc registry with limit 1; from offset 0 the page is
non-empty and the offset advances to 1, from offset 2 the page is empty and
the offset resets to 0. -/
theorem get_batches_cursor_spec_witness :
    ((get_batches (fun _ => wProviderBad)
        [{ id := some "a", device_token := none }, { id := some "b", device_token := none }]
        1 0 (fun _ => emptyStore)).skip = 0 + 1 ∧
      (get_batches (fun _ => wProviderBad)
        [{ id := some "a", device_token := none }, { id := some "b", device_token := none }]
        1 0 (fun _ => emptyStore)).processedBatch =
          some [{ token := "a", device_token := none }]) ∧
    ((get_batches (fun _ => wProviderBad)
        [{ id := some "a", device_token := none }, { id := some "b", device_token := none }]
        1 2 (fun _ => emptyStore)).skip = 0 ∧
      (get_batches (fun _ => wProviderBad)
        [{ id := some "a", device_token := none }, { id := some "b", device_token := none }]
        1 2 (fun _ => emptyStore)).processedBatch = none) := by
  constructor
  · have h := (get_batches_cursor_spec (fun _ => wProviderBad)
      [{ id := some "a", device_token := none }, { id := some "b", device_token := none }]
      1 0 (fun _ => emptyStore)).2 (by decide)
    exact ⟨h.1, h.2.1⟩
  · have h := (get_batches_cursor_spec (fun _ => wProviderBad)
      [{ id := some "a", device_token := none }, { id := some "b", device_token := none }]
      1 2 (fun _ => emptyStore)).1 (by decide)
    exact ⟨h.1, h.2.1⟩

/-! ## C9 — user-info pipeline notifies and overwrites iff changed -/

/-- C9: `produce_user_info` returns the external profile in both cases; when
the stored profile equals it nothing is emitted or written, otherwise exactly
one notification is emitted and the stored profile is overwritten with the
external one. -/
theorem produce_user_info_spec (P : Provider) (dt : String) (s : Store) (eu su : User)
    (hP : P.get_user = .ok eu) (hs : s.user = some su) :
    produce_user_info P dt s =
      if su = eu then (.ok eu, s, [])
      else (.ok eu, { s with user := some eu },
        [.notif { device_token := dt, title := "New user info",
                  body := create_body_message_user eu }, .upd .user]) := by
  unfold produce_user_info get_user update_user
  rw [hP]
  simp only [hs]

/-- Witness for C9: a changed profile emits one notification and overwrites,
an unchanged one does neither. -/
theorem produce_user_info_spec_witness :
    produce_user_info (mkProvider wUser [] (fun _ => []) [] (fun _ => [])) "d"
        { emptyStore with user := some { userid := 7, fullname := "Old" } } =
      (.ok wUser, { emptyStore with user := some wUser },
        [.notif { device_token := "d", title := "New user info",
                  body := create_body_message_user wUser }, .upd .user]) ∧
    produce_user_info (mkProvider wUser [] (fun _ => []) [] (fun _ => [])) "d"
        { emptyStore with user := some wUser } =
      (.ok wUser, { emptyStore with user := some wUser }, []) := by
  constructor
  · exact (produce_user_info_spec (mkProvider wUser [] (fun _ => []) [] (fun _ => [])) "d"
      { emptyStore with user := some { userid := 7, fullname := "Old" } } wUser
      { userid := 7, fullname := "Old" } rfl rfl).trans (if_neg (by decide))
  · exact (produce_user_info_spec (mkProvider wUser [] (fun _ => []) [] (fun _ => [])) "d"
      { emptyStore with user := some wUser } wUser wUser rfl rfl).trans (if_pos rfl)

/-! ## C2 — course diff: notifications, overwrite condition, return value -/

/-- C2 (amended): `produce_course` emits one notification per external course
whose id is absent from the stored ids, with the course display name in the
notification body and the fixed string "New course" as its title (the claim
places the display name in the title); it overwrites the stored list with the
full external list iff the diff is non-empty, and returns the full unfiltered
external list in both cases. -/
theorem produce_course_spec (P : Provider) (dt : String) (u : User) (s : Store)
    (ecs sc : List Course) (hP : P.get_courses u.userid = .ok ecs)
    (hs : s.courses = some sc) :
    produce_course P dt u s =
      if (compare_courses ecs sc).isEmpty then (.ok ecs, s, [])
      else (.ok ecs, { s with courses := some ecs },
        (compare_courses ecs sc).map (fun c => Event.notif
          { device_token := dt, title := "New course", body := c.fullname }) ++
        [.upd .courses]) := by
  unfold produce_course get_courses update_courses
  rw [hP]
  simp only [hs]
  by_cases h : (compare_courses ecs sc).isEmpty
  · rw [List.isEmpty_iff] at h
    simp [h]
  · have h' : (compare_courses ecs sc).isEmpty = false := by
      simpa using h
    simp [h']

/-- Witness for C2's amended statement: one new course yields one
notification (title "New course", body "Algebra") and a full overwrite. -/
theorem produce_course_spec_witness :
    produce_course (mkProvider wUser [wCourse] (fun _ => []) [] (fun _ => [])) "d" wUser
        { emptyStore with courses := some [] } =
      (.ok [wCourse], { emptyStore with courses := some [wCourse] },
        [.notif { device_token := "d", title := "New course", body := "Algebra" },
         .upd .courses]) := by
  rw [produce_course_spec (mkProvider wUser [wCourse] (fun _ => []) [] (fun _ => [])) "d"
    wUser { emptyStore with courses := some [] } [wCourse] [] rfl rfl]
  rw [if_neg (by decide)]
  rfl

/-- Counterexample for C2 as stated: the emitted notification's title is the
fixed string "New course", not the new course's display name "Algebra" (which
goes to the body). -/
theorem produce_course_title_counterexample :
    notifsOf (produce_course (mkProvider wUser [wCourse] (fun _ => []) [] (fun _ => []))
        "d" wUser { emptyStore with courses := some [] }).2.2 =
      [{ device_token := "d", title := "New course", body := "Algebra" }] ∧
    "New course" ≠ "Algebra" := by
  exact ⟨rfl, by decide⟩

/-! ## C3 — grade failure does not suppress sibling sub-pipelines -/

/-- C3: once the user and course sub-pipelines succeed, the dispatcher enters
the grade-overview sub-pipeline and the deadline sub-pipeline for the same
account with no assumption on the grade (or grade-overview) result, so an
error in the grade sub-pipeline cannot prevent them from running. -/
theorem sibling_subpipelines_run (P : Provider) (dt : String) (s : Store)
    (hu : (process_producing P dt s).userOk = true)
    (hc : (process_producing P dt s).courseOk = true) :
    Event.ran .gradeOverview ∈ (process_producing P dt s).events ∧
    Event.ran .deadline ∈ (process_producing P dt s).events := by
  rcases h1 : (produce_user_info P dt s).1 with e | u
  · simp only [process_producing, h1] at hu
    simp at hu
  · rcases h2 : (produce_course P dt u (produce_user_info P dt s).2.1).1 with e | courses
    · simp only [process_producing, h1, h2] at hc
      simp at hc
    · simp only [process_producing, h1, h2]
      constructor <;> simp [List.mem_append]

/-- Witness for C3: a provider whose grade fetch fails while everything else
succeeds; the grade sub-pipeline errors, yet the overview and deadline
sub-pipelines still run. -/
def wProviderC3 : Provider :=
  { valid_token := .ok ()
    get_user := .ok wUser
    get_courses := fun _ => .ok [wCourse]
    get_grades_by_course_id := fun _ _ => .error .ProviderError
    get_grades_overview := .ok []
    get_deadline_by_course_id := fun _ => .ok [] }

def wStoreC3 : Store :=
  { registered := true, user := some wUser, courses := some [wCourse],
    grades := some [], grades_overview := some [], deadlines := some [] }

theorem sibling_subpipelines_run_witness :
    (process_producing wProviderC3 "d" wStoreC3).userOk = true ∧
    (process_producing wProviderC3 "d" wStoreC3).courseOk = true ∧
    (process_producing wProviderC3 "d" wStoreC3).gradeOk = false ∧
    Event.ran .gradeOverview ∈ (process_producing wProviderC3 "d" wStoreC3).events ∧
    Event.ran .deadline ∈ (process_producing wProviderC3 "d" wStoreC3).events := by
  have h := sibling_subpipelines_run wProviderC3 "d" wStoreC3 rfl rfl
  exact ⟨rfl, rfl, rfl, h.1, h.2⟩

/-! ## C4 — batch abort behaviour -/

/-- C4 (amended): an account with a device token can never abort the batch
(`process_producing` is infallible and the loop reaches every account), but a
provider or store failure while resyncing an account without a device token
aborts `process_batch`: the error is returned and no subsequent account of
the batch is processed. -/
theorem process_batch_abort_spec :
    (∀ (env : String → Provider) (batch : List Token) (g : String → Store),
      (∀ t ∈ batch, t.device_token ≠ none) →
      (process_batch env batch g).1 = .ok () ∧
      (process_batch env batch g).2.2.2 = batch.map Token.token) ∧
    (∀ (env : String → Provider) (t : Token) (rest : List Token) (g : String → Store)
      (e : ServiceError), t.device_token = none →
      (fetch_and_update_data (env t.token) (g t.token)).1 = .error e →
      (process_batch env (t :: rest) g).1 = .error e ∧
      (process_batch env (t :: rest) g).2.2.2 = [t.token]) := by
  constructor
  · intro env batch
    induction batch with
    | nil => exact fun g _ => ⟨rfl, rfl⟩
    | cons t rest ih =>
      intro g hall
      have ht := hall t (List.mem_cons_self t rest)
      cases hd : t.device_token with
      | none => exact absurd hd ht
      | some dt =>
        have ihr := ih
          (setStore g t.token (process_producing (env t.token) dt (g t.token)).store)
          (fun x hx => hall x (List.mem_cons_of_mem _ hx))
        constructor
        · simp only [process_batch]
          rw [hd]
          simpa using ihr.1
        · simp only [process_batch]
          rw [hd]
          simpa using ihr.2
  · intro env t rest g e hd hf
    constructor
    · simp only [process_batch]
      rw [hd]
      simp [hf]
    · simp only [process_batch]
      rw [hd]
      simp [hf]

/-- Counterexample for C4 as stated: a batch whose first account has no
device token and whose provider fails; `process_batch` returns the error
instead of success and the second account is never reached. -/
theorem process_batch_abort_counterexample :
    (process_batch (fun _ => wProviderBad)
        [{ token := "A", device_token := none },
         { token := "B", device_token := some "d" }]
        (fun _ => emptyStore)).1 = .error .InvalidToken ∧
    (process_batch (fun _ => wProviderBad)
        [{ token := "A", device_token := none },
         { token := "B", device_token := some "d" }]
        (fun _ => emptyStore)).2.2.2 = ["A"] := by
  exact ⟨rfl, rfl⟩

/-- Witness for C4's amended statement: the all-device-token half at a
concrete two-account batch and the abort half at the concrete failing
account. -/
theorem process_batch_abort_spec_witness :
    ((process_batch (fun _ => wProviderC3)
        [{ token := "A", device_token := some "d" },
         { token := "B", device_token := some "d" }]
        (fun _ => wStoreC3)).1 = .ok () ∧
      (process_batch (fun _ => wProviderC3)
        [{ token := "A", device_token := some "d" },
         { token := "B", device_token := some "d" }]
        (fun _ => wStoreC3)).2.2.2 = ["A", "B"]) ∧
    ((process_batch (fun _ => wProviderBad)
        [{ token := "A", device_token := none },
         { token := "B", device_token := some "d" }]
        (fun _ => emptyStore)).1 = .error .InvalidToken ∧
      (process_batch (fun _ => wProviderBad)
        [{ token := "A", device_token := none },
         { token := "B", device_token := some "d" }]
        (fun _ => emptyStore)).2.2.2 = ["A"]) := by
  constructor
  · exact process_batch_abort_spec.1 (fun _ => wProviderC3)
      [{ token := "A", device_token := some "d" },
       { token := "B", device_token := some "d" }]
      (fun _ => wStoreC3) (by intro t ht; fin_cases ht <;> simp)
  · exact process_batch_abort_spec.2 (fun _ => wProviderBad)
      { token := "A", device_token := none }
      [{ token := "B", device_token := some "d" }]
      (fun _ => emptyStore) .InvalidToken rfl rfl

/-! ## C7 — deadline pipeline characterization -/

/-- Notifications one course contributes in `produce_deadline`: none when its
external list is empty, otherwise one per new deadline of the diff against the
stored list. -/
def dlNotifFor (dt : String) (sdl : List Deadline) (c : Course) (ext : List Deadline) :
    List Event :=
  if ext.isEmpty then []
  else (compare_deadlines (sort_deadlines (tagDeadlines c ext)) sdl).map (fun d =>
    Event.notif { device_token := dt, title := "New deadline",
                  body := create_body_message_deadline d })

/-- Whether one course contributes a new deadline in `produce_deadline`. -/
def dlNewFlag (sdl : List Deadline) (c : Course) (ext : List Deadline) : Bool :=
  !ext.isEmpty &&
    !(compare_deadlines (sort_deadlines (tagDeadlines c ext)) sdl).isEmpty

theorem collect_deadlines_spec (P : Provider) (edl : Nat → List Deadline) :
    ∀ cs : List Course, (∀ c ∈ cs, P.get_deadline_by_course_id c.id = .ok (edl c.id)) →
      collect_deadlines P cs = .ok (cs.flatMap (fun c => tagDeadlines c (edl c.id)))
  | [], _ => by simp [collect_deadlines]
  | c :: rest, hP => by
    have hc := hP c (List.mem_cons_self c rest)
    have ih := collect_deadlines_spec P edl rest (fun x hx => hP x (List.mem_cons_of_mem _ hx))
    simp [collect_deadlines, hc, ih]

theorem deadline_course_loop_spec (P : Provider) (dt : String) (edl : Nat → List Deadline)
    (cs : List Course) :
    ∀ (s : Store) (flag : Bool),
      (∀ c ∈ cs, P.get_deadline_by_course_id c.id = .ok (edl c.id)) →
      deadline_course_loop P dt cs s flag =
        (.ok (), s,
         cs.flatMap (fun c => dlNotifFor dt (s.deadlines.getD []) c (edl c.id)),
         flag || cs.any (fun c => dlNewFlag (s.deadlines.getD []) c (edl c.id))) := by
  induction cs with
  | nil =>
    intro s flag _
    simp [deadline_course_loop]
  | cons c rest ih =>
    intro s flag hP
    have hc := hP c (List.mem_cons_self c rest)
    have ih' := fun fl => ih s fl (fun x hx => hP x (List.mem_cons_of_mem _ hx))
    simp only [deadline_course_loop, read_stored_deadlines_eq, hc]
    by_cases hnil : edl c.id = []
    · have he : (edl c.id).isEmpty = true := by simp [hnil]
      simp only [he, if_true, ih']
      simp [dlNotifFor, dlNewFlag, hnil]
    · have he : (edl c.id).isEmpty = false := by simpa [List.isEmpty_iff] using hnil
      simp only [he, Bool.false_eq_true, if_false, ih']
      simp [dlNotifFor, dlNewFlag, hnil, he, Bool.or_assoc]

/-- C7: `produce_deadline` succeeds treating a missing stored snapshot
(`DataIsEmpty`) as an empty stored list, a course with an empty external
deadline list contributes neither notifications nor a new-deadline flag, and
the stored deadline list is overwritten (with the full re-fetched, tagged and
sorted set) iff at least one new deadline was found in at least one course. -/
theorem produce_deadline_spec (P : Provider) (dt : String) (courses : List Course)
    (s : Store) (edl : Nat → List Deadline)
    (hP : ∀ c ∈ courses, P.get_deadline_by_course_id c.id = .ok (edl c.id)) :
    produce_deadline P dt courses s =
      (.ok (),
       (if courses.any (fun c => dlNewFlag (s.deadlines.getD []) c (edl c.id))
        then { s with
                deadlines := some (sort_deadlines (courses.flatMap (fun c => tagDeadlines c (edl c.id)))) }
        else s),
       courses.flatMap (fun c => dlNotifFor dt (s.deadlines.getD []) c (edl c.id)) ++
       (if courses.any (fun c => dlNewFlag (s.deadlines.getD []) c (edl c.id))
        then [Event.upd .deadlines] else [])) := by
  have hl := deadline_course_loop_spec P dt edl courses s false hP
  have hcd := collect_deadlines_spec P edl courses hP
  simp only [produce_deadline, hl]
  cases ha : courses.any (fun c => dlNewFlag (s.deadlines.getD []) c (edl c.id))
  · simp [ha]
  · simp [ha, update_deadlines, fetch_deadlines, hcd]

/-- Witness deadline fixture. -/
def wDeadline : Deadline := { coursename := none, title := "HW", dueAt := 5 }

/-- Witness for C7: one course, one external deadline, no stored snapshot
(`DataIsEmpty` path): one notification is emitted and the stored list is
overwritten with the tagged sorted external set. -/
theorem produce_deadline_spec_witness :
    produce_deadline (mkProvider wUser [wCourse] (fun _ => []) [] (fun _ => [wDeadline]))
        "d" [wCourse] emptyStore =
      (.ok (),
       { emptyStore with
          deadlines := some [{ coursename := some "Algebra", title := "HW", dueAt := 5 }] },
       [.notif { device_token := "d", title := "New deadline",
                 body := create_body_message_deadline
                   { coursename := some "Algebra", title := "HW", dueAt := 5 } },
        .upd .deadlines]) := by
  rw [produce_deadline_spec (mkProvider wUser [wCourse] (fun _ => []) [] (fun _ => [wDeadline]))
    "d" [wCourse] emptyStore (fun _ => [wDeadline])
    (fun c hc => by rw [List.mem_singleton] at hc; subst hc; rfl)]
  rfl

/-! ## Grade defensive-loop helper lemmas -/

/-- Characterization of the inner defensive loop when the resync always
succeeds and refetches the fixed list `FG`: the loop succeeds, the store is
unchanged or holds `FG`, and it emits no notification and only grade-resync
overwrites. -/
theorem grade_mismatch_inner_char (P : Provider) (u : User) (cs : List Course)
    (FG : List Grade) (hfetch : fetch_grades P u cs = .ok FG) (e : Grade) :
    ∀ (gs : List Grade) (s : Store),
      (grade_mismatch_inner P u cs e gs s).1 = .ok () ∧
      (((grade_mismatch_inner P u cs e gs s).2.1 = s ∧
         ∀ g ∈ gs, e.courseid = g.courseid →
           e.gradeitems.length = g.gradeitems.length) ∨
        (grade_mismatch_inner P u cs e gs s).2.1 = { s with grades := some FG }) ∧
      notifsOf (grade_mismatch_inner P u cs e gs s).2.2 = [] ∧
      ∀ x ∈ updsOf (grade_mismatch_inner P u cs e gs s).2.2, x = Upd.grades := by
  intro gs
  induction gs with
  | nil =>
    intro s
    simp [grade_mismatch_inner, notifsOf, updsOf]
  | cons g rest ih =>
    intro s
    by_cases hcond : e.courseid = g.courseid ∧ e.gradeitems.length ≠ g.gradeitems.length
    · have ihs := ih { s with grades := some FG }
      simp only [grade_mismatch_inner, if_pos hcond, update_grades, hfetch]
      rcases ihs with ⟨h1, h2, h3, h4⟩
      refine ⟨h1, ?_, ?_, ?_⟩
      · right
        rcases h2 with ⟨h2, _⟩ | h2 <;> rw [h2]
      · rw [notifsOf_cons_upd]
        exact h3
      · intro x hx
        rw [updsOf_cons_upd] at hx
        rcases List.mem_cons.mp hx with rfl | hx'
        · rfl
        · exact h4 x hx'
    · simp only [grade_mismatch_inner, if_neg hcond]
      obtain ⟨h1, h2, h3, h4⟩ := ih s
      refine ⟨h1, ?_, h3, h4⟩
      have hg : e.courseid = g.courseid → e.gradeitems.length = g.gradeitems.length := by
        intro hcg
        by_contra hlen
        exact hcond ⟨hcg, hlen⟩
      rcases h2 with ⟨h2, h2'⟩ | h2
      · left
        refine ⟨h2, ?_⟩
        intro g' hg'
        rcases List.mem_cons.mp hg' with rfl | hg''
        · exact hg
        · exact h2' g' hg''
      · right
        exact h2

/-- Characterization of the outer defensive loop, same conclusions as the
inner one. -/
theorem grade_mismatch_loop_char (P : Provider) (u : User) (cs : List Course)
    (FG : List Grade) (hfetch : fetch_grades P u cs = .ok FG) :
    ∀ (ext gs : List Grade) (s : Store),
      (grade_mismatch_loop P u cs ext gs s).1 = .ok () ∧
      (((grade_mismatch_loop P u cs ext gs s).2.1 = s ∧
         ∀ x ∈ ext, ∀ g ∈ gs, x.courseid = g.courseid →
           x.gradeitems.length = g.gradeitems.length) ∨
        (grade_mismatch_loop P u cs ext gs s).2.1 = { s with grades := some FG }) ∧
      notifsOf (grade_mismatch_loop P u cs ext gs s).2.2 = [] ∧
      ∀ x ∈ updsOf (grade_mismatch_loop P u cs ext gs s).2.2, x = Upd.grades := by
  intro ext
  induction ext with
  | nil =>
    intro gs s
    simp [grade_mismatch_loop, notifsOf, updsOf]
  | cons e rest ih =>
    intro gs s
    obtain ⟨hi1, hi2, hi3, hi4⟩ := grade_mismatch_inner_char P u cs FG hfetch e gs s
    simp only [grade_mismatch_loop, hi1]
    obtain ⟨hr1, hr2, hr3, hr4⟩ := ih gs (grade_mismatch_inner P u cs e gs s).2.1
    refine ⟨hr1, ?_, ?_, ?_⟩
    · rcases hi2 with ⟨hi2, hi2'⟩ | hi2
      · rcases hr2 with ⟨hr2, hr2'⟩ | hr2
        · left
          rw [hr2, hi2]
          refine ⟨rfl, ?_⟩
          intro x hx
          rcases List.mem_cons.mp hx with rfl | hx'
          · exact hi2'
          · exact hr2' x hx'
        · right
          rw [hr2, hi2]
      · rcases hr2 with ⟨hr2, _⟩ | hr2
        · right
          rw [hr2, hi2]
        · right
          rw [hr2, hi2]
    · rw [notifsOf_append, hi3, hr3]
      rfl
    · intro x hx
      rw [updsOf_append, List.mem_append] at hx
      rcases hx with hx | hx
      · exact hi4 x hx
      · exact hr4 x hx

/-! ## C5 — a course with zero external grades and the forced resync -/

/-- C5 (amended): a single course whose external grade list is empty and
which has no stored grade entries contributes no notification, but it does
trigger the forced unconditional grade resync: its course id is absent from
the stored grade list, so `produce_grade` performs exactly one `update_grades`
overwrite (writing the empty refetched list) and emits nothing. -/
theorem produce_grade_empty_course_resync (P : Provider) (dt : String) (u : User)
    (c : Course) (s : Store) (G : List Grade)
    (hgr : s.grades = some G) (hnone : ∀ g ∈ G, g.courseid ≠ c.id)
    (hP : P.get_grades_by_course_id u.userid c.id = .ok []) :
    produce_grade P dt u [c] s = (.ok (), { s with grades := some [] }, [.upd .grades]) := by
  have hall : (G.any (fun g => g.courseid == c.id)) = false := by
    rw [List.any_eq_false]
    intro g hg
    simpa using hnone g hg
  have hfetch : fetch_grades P u [c] = .ok [] := by
    simp [fetch_grades, hP, tagGrades]
  simp only [produce_grade, get_grades, hgr, List.all_cons, List.all_nil, Bool.and_true,
    hall, Bool.false_eq_true, if_false, update_grades, hfetch]
  simp [grade_course_loop, hP, tagGrades, get_grades, grade_mismatch_loop, compare_grades]

/-- Counterexample for C5 as stated: a concrete account with one course, no
external grades and an empty stored grade list; the pass emits nothing but
does perform the forced grade resync the claim rules out. -/
theorem produce_grade_empty_course_counterexample :
    notifsOf (produce_grade (mkProvider wUser [wCourse] (fun _ => []) [] (fun _ => []))
        "d" wUser [wCourse] { emptyStore with grades := some [] }).2.2 = [] ∧
    updsOf (produce_grade (mkProvider wUser [wCourse] (fun _ => []) [] (fun _ => []))
        "d" wUser [wCourse] { emptyStore with grades := some [] }).2.2 = [Upd.grades] ∧
    ([Upd.grades] : List Upd) ≠ [] := by
  exact ⟨rfl, rfl, by decide⟩

/-- Witness for C5's amended statement at the same concrete input. -/
theorem produce_grade_empty_course_resync_witness :
    produce_grade (mkProvider wUser [wCourse] (fun _ => []) [] (fun _ => []))
        "d" wUser [wCourse] { emptyStore with grades := some [] } =
      (.ok (), { emptyStore with grades := some [] }, [.upd .grades]) := by
  have h := produce_grade_empty_course_resync
    (mkProvider wUser [wCourse] (fun _ => []) [] (fun _ => [])) "d" wUser wCourse
    { emptyStore with grades := some [] } [] rfl (by intro g hg; cases hg) rfl
  exact h

/-! ## C6 — a single percentage change yields exactly one notification -/

/-- Grade diff of a keyed list against the same list with exactly one
element's `percentageformatted` changed: exactly that pair is reported. -/
theorem compare_grades_single_change (A B : List Grade) (e eOld : Grade) (old : String)
    (hOld : eOld = { e with percentageformatted := old })
    (hne : old ≠ e.percentageformatted)
    (hkeys : ((A ++ e :: B).map (fun g => (g.courseid, g.itemname))).Nodup) :
    compare_grades (A ++ e :: B) (A ++ eOld :: B) = [(e, eOld)] := by
  have hkeysS : ((A ++ eOld :: B).map (fun g => (g.courseid, g.itemname))).Nodup := by
    have hkeyeq : ((A ++ eOld :: B).map (fun g => (g.courseid, g.itemname))) =
        ((A ++ e :: B).map (fun g => (g.courseid, g.itemname))) := by
      simp [hOld]
    rw [hkeyeq]
    exact hkeys
  have hA : ∀ a ∈ A, gradeDiffAt (A ++ eOld :: B) a = none := by
    intro a ha
    have hf := find?_grade_key a.courseid a.itemname a (A ++ eOld :: B) hkeysS
      (List.mem_append_left _ ha) rfl rfl
    simp [gradeDiffAt, hf]
  have hB : ∀ b ∈ B, gradeDiffAt (A ++ eOld :: B) b = none := by
    intro b hb
    have hf := find?_grade_key b.courseid b.itemname b (A ++ eOld :: B) hkeysS
      (List.mem_append_right _ (List.mem_cons_of_mem _ hb)) rfl rfl
    simp [gradeDiffAt, hf]
  have hfe : (A ++ eOld :: B).find?
      (fun s => s.courseid == e.courseid && s.itemname == e.itemname) = some eOld :=
    find?_grade_key e.courseid e.itemname eOld (A ++ eOld :: B) hkeysS
      (List.mem_append_right _ (List.mem_cons_self _ _)) (by rw [hOld]) (by rw [hOld])
  have hpct : (eOld.percentageformatted == e.percentageformatted) = false := by
    rw [hOld]
    simpa using hne
  have he : gradeDiffAt (A ++ eOld :: B) e = some (e, eOld) := by
    simp [gradeDiffAt, hfe, hpct]
  rw [compare_grades, List.filterMap_append, List.filterMap_cons, he,
    List.filterMap_eq_nil_iff.mpr hA, List.filterMap_eq_nil_iff.mpr hB]
  rfl

/-- C6: when the external grades of the account's single course coincide with
the stored grades except that one entry's formatted percentage changed from
`old` to its new value, `produce_grade` emits exactly one notification, whose
body is built from the item name, the old and the new percentage; the body
literally contains both percentage strings. -/
theorem produce_grade_percentage_change (P : Provider) (dt : String) (u : User)
    (c : Course) (s : Store) (E A B : List Grade) (e eOld : Grade) (old : String)
    (hP : P.get_grades_by_course_id u.userid c.id = .ok E)
    (htag : tagGrades c E = A ++ e :: B)
    (hS : s.grades = some (A ++ eOld :: B))
    (hOld : eOld = { e with percentageformatted := old })
    (hne : old ≠ e.percentageformatted)
    (hcid : ∀ g ∈ A ++ e :: B, g.courseid = c.id)
    (hkeys : ((A ++ e :: B).map (fun g => (g.courseid, g.itemname))).Nodup) :
    notifsOf (produce_grade P dt u [c] s).2.2 =
      [{ device_token := dt, title := c.fullname,
         body := "New grade | " ++ e.itemname ++ "\n" ++ old ++ " -> " ++
           e.percentageformatted }] ∧
    ∃ x y z : String,
      "New grade | " ++ e.itemname ++ "\n" ++ old ++ " -> " ++ e.percentageformatted =
        x ++ old ++ y ++ e.percentageformatted ++ z := by
  constructor
  · have hfetch : fetch_grades P u [c] = .ok (tagGrades c E) := by
      simp [fetch_grades, hP]
    have hcmp := compare_grades_single_change A B e eOld old hOld hne hkeys
    have hcmp' : compare_grades (tagGrades c E) (A ++ eOld :: B) = [(e, eOld)] := by
      rw [htag]
      exact hcmp
    have hall : ((A ++ eOld :: B).any (fun g => g.courseid == c.id)) = true := by
      rw [List.any_eq_true]
      refine ⟨eOld, List.mem_append_right _ (List.mem_cons_self _ _), ?_⟩
      have hOc : eOld.courseid = c.id := by
        rw [hOld]
        exact hcid e (List.mem_append_right _ (List.mem_cons_self _ _))
      simp [hOc]
    have hOldPct : eOld.percentageformatted = old := by rw [hOld]
    obtain ⟨hm1, hm2, hm3, hm4⟩ := grade_mismatch_loop_char P u [c] (tagGrades c E) hfetch
      (tagGrades c E) (A ++ eOld :: B) s
    simp only [produce_grade, get_grades, hS, List.all_cons, List.all_nil, Bool.and_true,
      hall, if_true, grade_course_loop, hP, hm1, hcmp', hOldPct, update_grades, hfetch,
      List.map_cons, List.map_nil, List.isEmpty_cons, Bool.not_false, Bool.false_or,
      List.nil_append, List.append_nil, if_true]
    rw [notifsOf_append, notifsOf_append, hm3]
    rfl
  · exact ⟨"New grade | " ++ e.itemname ++ "\n", " -> ", "", by
      simp [String.append_assoc]⟩

/-- External grade of the C6 witness before tagging. -/
def wGradeE : Grade :=
  { courseid := 1, coursename := none, itemname := "HW1",
    percentageformatted := "75%", gradeitems := ["i"] }

/-- Tagged external grade of the C6 witness. -/
def wGradeNew : Grade :=
  { courseid := 1, coursename := some "Algebra", itemname := "HW1",
    percentageformatted := "75%", gradeitems := ["i"] }

/-- Stored counterpart of the C6 witness, same key, old percentage. -/
def wGradeOld : Grade := { wGradeNew with percentageformatted := "50%" }

def wProviderC6 : Provider :=
  mkProvider wUser [wCourse] (fun _ => [wGradeE]) [] (fun _ => [])

def wStoreC6 : Store := { emptyStore with grades := some [wGradeOld] }

/-- Witness for C6: percentage change "50%" → "75%" on key `(1, "HW1")`
yields exactly one notification whose body contains both strings. -/
theorem produce_grade_percentage_change_witness :
    notifsOf (produce_grade wProviderC6 "d" wUser [wCourse] wStoreC6).2.2 =
      [{ device_token := "d", title := "Algebra",
         body := "New grade | HW1\n50% -> 75%" }] ∧
    ∃ x y z : String,
      "New grade | HW1\n50% -> 75%" = x ++ "50%" ++ y ++ "75%" ++ z := by
  have h := produce_grade_percentage_change wProviderC6 "d" wUser wCourse wStoreC6
    [wGradeE] [] [] wGradeNew wGradeOld "50%" rfl rfl rfl rfl (by decide)
    (by decide) (by decide)
  exact h

/-! ## C1 — idempotence of a second pass over unchanged external state

The external state of one account is bundled as pure response functions; the
same bundle answering both passes is exactly the claim's "external state
unchanged between two consecutive polling passes". -/

structure ExtState where
  u : User
  ecs : List Course
  egr : Nat → List Grade
  eov : List GradeOverview
  edl : Nat → List Deadline

/-- The all-ok provider of an external state. -/
def ExtState.P (E : ExtState) : Provider := mkProvider E.u E.ecs E.egr E.eov E.edl

/-- The grade list a full grade resync stores: all courses' external grades,
tagged, in course order. -/
def ExtState.FG (E : ExtState) : List Grade :=
  E.ecs.flatMap (fun c => tagGrades c (E.egr c.id))

/-- The non-past course subset the deadline pipeline operates on. -/
def ExtState.NPC (E : ExtState) : List Course := delete_past_courses E.ecs

/-- The overview a resync stores: annotated and sorted external rows. -/
def ExtState.FOV (E : ExtState) : List GradeOverview :=
  sort_grades_overview (annotate_overview E.ecs E.eov)

/-- The deadline list a resync stores: non-past courses' external deadlines,
tagged and sorted. -/
def ExtState.FD (E : ExtState) : List Deadline :=
  sort_deadlines (E.NPC.flatMap (fun c => tagDeadlines c (E.edl c.id)))

/-- Well-formedness of the external state, as the spec's data model states
it: course lists are sets keyed by id, grade identity is the
`(courseId, itemName)` key (unique per course, and each course's grades carry
that course's id), and the overview has one row per course. -/
def ExtState.WF (E : ExtState) : Prop :=
  (E.ecs.map Course.id).Nodup ∧
  (∀ c ∈ E.ecs, ∀ g ∈ E.egr c.id, g.courseid = c.id) ∧
  (∀ c ∈ E.ecs, ((E.egr c.id).map Grade.itemname).Nodup) ∧
  (E.eov.map GradeOverview.courseid).Nodup

def gkey (g : Grade) : Nat × String := (g.courseid, g.itemname)

theorem fetch_grades_P (E : ExtState) (u' : User) :
    ∀ cs : List Course,
      fetch_grades E.P u' cs = .ok (cs.flatMap (fun c => tagGrades c (E.egr c.id)))
  | [] => by simp [fetch_grades]
  | c :: rest => by
    have ih := fetch_grades_P E u' rest
    have hp : E.P.get_grades_by_course_id u'.userid c.id = .ok (E.egr c.id) := rfl
    simp [fetch_grades, hp, ih]

theorem update_grades_P (E : ExtState) (u' : User) (s : Store) :
    update_grades E.P u' E.ecs s = (.ok (), { s with grades := some E.FG }) := by
  simp [update_grades, fetch_grades_P, ExtState.FG]

theorem fetch_grades_overview_P (E : ExtState) (cs : List Course) :
    fetch_grades_overview E.P cs = .ok (sort_grades_overview (annotate_overview cs E.eov)) :=
  rfl

theorem update_grades_overview_P (E : ExtState) (s : Store) :
    update_grades_overview E.P E.ecs s =
      (.ok (), { s with grades_overview := some E.FOV }) := rfl

theorem collect_deadlines_P (E : ExtState) :
    ∀ cs : List Course,
      collect_deadlines E.P cs = .ok (cs.flatMap (fun c => tagDeadlines c (E.edl c.id)))
  | [] => by simp [collect_deadlines]
  | c :: rest => by
    have ih := collect_deadlines_P E rest
    have hp : E.P.get_deadline_by_course_id c.id = .ok (E.edl c.id) := rfl
    simp [collect_deadlines, hp, ih]

theorem update_deadlines_P (E : ExtState) (s : Store) :
    update_deadlines E.P E.NPC s = (.ok (), { s with deadlines := some E.FD }) := by
  simp [update_deadlines, fetch_deadlines, collect_deadlines_P, ExtState.FD]

/-- Replacing the grades field by the value it already holds is the
identity. -/
theorem store_grades_eta (s : Store) (X : List Grade) (h : s.grades = some X) :
    { s with grades := some X } = s := by
  cases s
  simp_all

theorem tagGrades_map_gkey (c : Course) (gs : List Grade) :
    (tagGrades c gs).map gkey = gs.map gkey := by
  simp only [tagGrades, List.map_map]
  rfl

theorem mem_tagGrades_courseid (c : Course) (gs : List Grade)
    (h : ∀ g ∈ gs, g.courseid = c.id) :
    ∀ x ∈ tagGrades c gs, x.courseid = c.id := by
  intro x hx
  rw [tagGrades, List.mem_map] at hx
  obtain ⟨g, hg, rfl⟩ := hx
  exact h g hg

theorem fg_keys_nodup_aux (egr : Nat → List Grade) :
    ∀ cs : List Course, (cs.map Course.id).Nodup →
      (∀ c ∈ cs, ∀ g ∈ egr c.id, g.courseid = c.id) →
      (∀ c ∈ cs, ((egr c.id).map Grade.itemname).Nodup) →
      ((cs.flatMap (fun c => tagGrades c (egr c.id))).map gkey).Nodup
  | [], _, _, _ => by simp
  | c :: rest, hid, hg1, hg2 => by
    rw [List.map_cons, List.nodup_cons] at hid
    have ih := fg_keys_nodup_aux egr rest hid.2
      (fun x hx => hg1 x (List.mem_cons_of_mem _ hx))
      (fun x hx => hg2 x (List.mem_cons_of_mem _ hx))
    rw [List.flatMap_cons, List.map_append]
    apply List.Nodup.append
    · rw [tagGrades_map_gkey]
      have h2 : (((egr c.id).map gkey).map Prod.snd).Nodup := by
        rw [List.map_map]
        exact hg2 c (List.mem_cons_self c rest)
      exact h2.of_map
    · exact ih
    · intro k hk1 hk2
      have h1 : k.1 = c.id := by
        rw [tagGrades_map_gkey] at hk1
        obtain ⟨g, hg, rfl⟩ := List.mem_map.mp hk1
        exact hg1 c (List.mem_cons_self c rest) g hg
      have h2 : k.1 ∈ rest.map Course.id := by
        obtain ⟨x, hx, rfl⟩ := List.mem_map.mp hk2
        obtain ⟨c', hc', hxc⟩ := List.mem_flatMap.mp hx
        have hxc' : x.courseid = c'.id :=
          mem_tagGrades_courseid c' (egr c'.id)
            (hg1 c' (List.mem_cons_of_mem _ hc')) x hxc
        exact List.mem_map.mpr ⟨c', hc', by simp [gkey, hxc']⟩
      exact hid.1 (h1 ▸ h2)

theorem fg_keys_nodup (E : ExtState) (hWF : E.WF) : (E.FG.map gkey).Nodup :=
  fg_keys_nodup_aux E.egr E.ecs hWF.1 hWF.2.1 hWF.2.2.1

/-- Under well-formed keys, the grade diff of any course's tagged external
grades against the full resynced list `FG` is empty. -/
theorem compare_tag_FG_nil (E : ExtState) (hWF : E.WF) :
    ∀ c ∈ E.ecs, compare_grades (tagGrades c (E.egr c.id)) E.FG = [] := by
  intro c hc
  apply compare_grades_nil
  intro e he
  have heFG : e ∈ E.FG := List.mem_flatMap.mpr ⟨c, hc, he⟩
  exact find?_grade_key e.courseid e.itemname e E.FG (fg_keys_nodup E hWF) heFG rfl rfl

/-- The overview diff of the freshly computed external overview against its
own re-sorted copy is empty. -/
theorem ov_compare_FOV_nil (E : ExtState) (hWF : E.WF) :
    compare_grades_overview E.FOV (sort_grades_overview E.FOV) = [] := by
  have hsorted : List.Sorted ovLe E.FOV :=
    List.sorted_insertionSort ovLe (annotate_overview E.ecs E.eov)
  have hidem : sort_grades_overview E.FOV = E.FOV :=
    List.Sorted.insertionSort_eq hsorted
  rw [hidem]
  apply compare_grades_overview_self
  have hmap : (annotate_overview E.ecs E.eov).map GradeOverview.courseid =
      E.eov.map GradeOverview.courseid := by
    simp only [annotate_overview, List.map_map]
    apply List.map_congr_left
    intro r _
    simp only [Function.comp]
    split <;> rfl
  have hperm : (E.FOV.map GradeOverview.courseid).Perm
      (E.eov.map GradeOverview.courseid) := by
    rw [← hmap]
    exact (List.perm_insertionSort ovLe (annotate_overview E.ecs E.eov)).map _
  exact hperm.nodup_iff.mpr hWF.2.2.2

/-- The deadline diff of any non-past course's tagged sorted external
deadlines against the full resynced list `FD` is empty. -/
theorem dl_compare_FD_nil (E : ExtState) :
    ∀ c ∈ E.NPC,
      compare_deadlines (sort_deadlines (tagDeadlines c (E.edl c.id))) E.FD = [] := by
  intro c hc
  apply compare_deadlines_nil
  intro e he
  have he1 : e ∈ tagDeadlines c (E.edl c.id) :=
    (List.perm_insertionSort dlLe (tagDeadlines c (E.edl c.id))).mem_iff.mp he
  have he2 : e ∈ E.NPC.flatMap (fun c => tagDeadlines c (E.edl c.id)) :=
    List.mem_flatMap.mpr ⟨c, hc, he1⟩
  exact (List.perm_insertionSort dlLe
    (E.NPC.flatMap (fun c => tagDeadlines c (E.edl c.id)))).mem_iff.mpr he2

/-- No defensive count mismatch between an external list and a stored
list. -/
def noMM (ext G : List Grade) : Prop :=
  ∀ x ∈ ext, ∀ g ∈ G, x.courseid = g.courseid →
    x.gradeitems.length = g.gradeitems.length

/-- A stored grade list the grade pipeline keeps quiet on: either exactly the
full resync list, or a list that passes the representation check, the count
check and all per-course diffs. -/
def GradeStable (E : ExtState) (G : List Grade) : Prop :=
  G = E.FG ∨
    ((E.ecs.all (fun c => G.any (fun g => g.courseid == c.id))) = true ∧
     ∀ c ∈ E.ecs, noMM (tagGrades c (E.egr c.id)) G ∧
       compare_grades (tagGrades c (E.egr c.id)) G = [])

theorem grade_mismatch_inner_id (P : Provider) (u : User) (cs : List Course) (e : Grade) :
    ∀ (gs : List Grade) (s : Store),
      (∀ g ∈ gs, e.courseid = g.courseid → e.gradeitems.length = g.gradeitems.length) →
      grade_mismatch_inner P u cs e gs s = (.ok (), s, [])
  | [], s, _ => rfl
  | g :: rest, s, h => by
    have hcond : ¬(e.courseid = g.courseid ∧ e.gradeitems.length ≠ g.gradeitems.length) := by
      rintro ⟨h1, h2⟩
      exact h2 (h g (List.mem_cons_self g rest) h1)
    simp only [grade_mismatch_inner, if_neg hcond]
    exact grade_mismatch_inner_id P u cs e rest s
      (fun g' hg' => h g' (List.mem_cons_of_mem _ hg'))

theorem grade_mismatch_loop_id (P : Provider) (u : User) (cs : List Course) :
    ∀ (ext gs : List Grade) (s : Store), noMM ext gs →
      grade_mismatch_loop P u cs ext gs s = (.ok (), s, [])
  | [], _, s, _ => rfl
  | e :: rest, gs, s, h => by
    have hi := grade_mismatch_inner_id P u cs e gs s (h e (List.mem_cons_self e rest))
    have hr := grade_mismatch_loop_id P u cs rest gs s
      (fun x hx => h x (List.mem_cons_of_mem _ hx))
    simp [grade_mismatch_loop, hi, hr]

/-- Pass-2 grade loop over a store already holding the full resync list: no
notification, only (idempotent) grade-resync writes, the store and the flag
unchanged. -/
theorem grade_course_loop_FG (E : ExtState) (hWF : E.WF) (dt : String) :
    ∀ cs : List Course, (∀ c ∈ cs, c ∈ E.ecs) →
      ∀ (s : Store) (flag : Bool), s.grades = some E.FG →
        (grade_course_loop E.P dt E.u E.ecs cs s flag).1 = .ok () ∧
        (grade_course_loop E.P dt E.u E.ecs cs s flag).2.1 = s ∧
        notifsOf (grade_course_loop E.P dt E.u E.ecs cs s flag).2.2.1 = [] ∧
        (∀ x ∈ updsOf (grade_course_loop E.P dt E.u E.ecs cs s flag).2.2.1,
          x = Upd.grades) ∧
        (grade_course_loop E.P dt E.u E.ecs cs s flag).2.2.2 = flag := by
  intro cs
  induction cs with
  | nil =>
    intro _ s flag _
    simp [grade_course_loop, notifsOf, updsOf]
  | cons c rest ih =>
    intro hsub s flag hs
    have hc := hsub c (List.mem_cons_self c rest)
    have hp : E.P.get_grades_by_course_id E.u.userid c.id = .ok (E.egr c.id) := rfl
    have hfetch : fetch_grades E.P E.u E.ecs = .ok E.FG := by
      rw [fetch_grades_P]
      rfl
    obtain ⟨hm1, hm2, hm3, hm4⟩ := grade_mismatch_loop_char E.P E.u E.ecs E.FG hfetch
      (tagGrades c (E.egr c.id)) E.FG s
    have hms : (grade_mismatch_loop E.P E.u E.ecs
        (tagGrades c (E.egr c.id)) E.FG s).2.1 = s := by
      rcases hm2 with ⟨h, _⟩ | h
      · exact h
      · rw [h]
        exact store_grades_eta s E.FG hs
    have hcmp := compare_tag_FG_nil E hWF c hc
    simp only [grade_course_loop, hp, get_grades, hs, hm1, hms, hcmp, List.map_nil,
      List.isEmpty_nil, Bool.not_true, Bool.or_false, List.append_nil]
    obtain ⟨ih1, ih2, ih3, ih4, ih5⟩ := ih (fun x hx => hsub x (List.mem_cons_of_mem _ hx))
      s flag hs
    refine ⟨ih1, ih2, ?_, ?_, ih5⟩
    · rw [notifsOf_append, hm3, ih3]
      rfl
    · intro x hx
      rw [updsOf_append, List.mem_append] at hx
      rcases hx with hx | hx
      · exact hm4 x hx
      · exact ih4 x hx

/-- Pass-2 grade loop over a stable non-resync store: a strict no-op. -/
theorem grade_course_loop_clean (E : ExtState) (dt : String) :
    ∀ cs : List Course,
      ∀ (s : Store) (flag : Bool) (G : List Grade), s.grades = some G →
        (∀ c ∈ cs, noMM (tagGrades c (E.egr c.id)) G ∧
          compare_grades (tagGrades c (E.egr c.id)) G = []) →
        grade_course_loop E.P dt E.u E.ecs cs s flag = (.ok (), s, [], flag)
  | [] => by
    intro s flag G _ _
    rfl
  | c :: rest => by
    intro s flag G hG hcl
    have hp : E.P.get_grades_by_course_id E.u.userid c.id = .ok (E.egr c.id) := rfl
    have hml := grade_mismatch_loop_id E.P E.u E.ecs (tagGrades c (E.egr c.id)) G s
      (hcl c (List.mem_cons_self c rest)).1
    have ih := grade_course_loop_clean E dt rest s flag G hG
      (fun x hx => hcl x (List.mem_cons_of_mem _ hx))
    simp only [grade_course_loop, hp, get_grades, hG, hml,
      (hcl c (List.mem_cons_self c rest)).2, List.map_nil, List.isEmpty_nil,
      Bool.not_true, Bool.or_false, ih, List.append_nil, List.nil_append]

/-- Pass-2 grade pipeline over a stable store: success, store unchanged, no
notification, only grade-resync overwrite calls. -/
theorem produce_grade_stable (E : ExtState) (hWF : E.WF) (dt : String) (s : Store)
    (G : List Grade) (hG : s.grades = some G) (hGS : GradeStable E G) :
    (produce_grade E.P dt E.u E.ecs s).1 = .ok () ∧
    (produce_grade E.P dt E.u E.ecs s).2.1 = s ∧
    notifsOf (produce_grade E.P dt E.u E.ecs s).2.2 = [] ∧
    (∀ x ∈ updsOf (produce_grade E.P dt E.u E.ecs s).2.2, x = Upd.grades) := by
  rcases hGS with hFG | ⟨hall, hcl⟩
  · subst hFG
    obtain ⟨hl1, hl2, hl3, hl4, hl5⟩ :=
      grade_course_loop_FG E hWF dt E.ecs (fun _ h => h) s false hG
    cases hai : E.ecs.all (fun c => E.FG.any (fun g => g.courseid == c.id))
    · have heq : produce_grade E.P dt E.u E.ecs s =
          (.ok (), s,
            Event.upd Upd.grades ::
              (grade_course_loop E.P dt E.u E.ecs E.ecs s false).2.2.1) := by
        simp only [produce_grade, get_grades, hG, hai, Bool.false_eq_true, if_false,
          update_grades_P, store_grades_eta s E.FG hG, hl1, hl5, hl2,
          List.singleton_append]
      rw [heq]
      refine ⟨rfl, rfl, ?_, ?_⟩
      · rw [notifsOf_cons_upd]
        exact hl3
      · intro x hx
        rw [updsOf_cons_upd] at hx
        rcases List.mem_cons.mp hx with rfl | hx'
        · rfl
        · exact hl4 x hx'
    · have heq : produce_grade E.P dt E.u E.ecs s =
          (.ok (), s, (grade_course_loop E.P dt E.u E.ecs E.ecs s false).2.2.1) := by
        simp only [produce_grade, get_grades, hG, hai, if_true, hl1, hl5,
          Bool.false_eq_true, if_false, List.nil_append, hl2]
      rw [heq]
      exact ⟨rfl, rfl, hl3, hl4⟩
  · have hcleq := grade_course_loop_clean E dt E.ecs s false G hG hcl
    simp only [produce_grade, get_grades, hG, hall, if_true, hcleq]
    simp [notifsOf, updsOf]

/-- Full characterization of the pass-1 grade loop: it succeeds, touches only
the grades field, leaves the store either resynced to `FG` or untouched, its
flag is monotone, and an untouched store with a false flag means every course
passed both the count check and the diff (unless the store already held
`FG`). -/
theorem grade_course_loop_char (E : ExtState) (dt : String) :
    ∀ cs : List Course,
      ∀ (s : Store) (flag : Bool) (G : List Grade), s.grades = some G →
        (grade_course_loop E.P dt E.u E.ecs cs s flag).1 = .ok () ∧
        ((grade_course_loop E.P dt E.u E.ecs cs s flag).2.1.user = s.user ∧
         (grade_course_loop E.P dt E.u E.ecs cs s flag).2.1.courses = s.courses ∧
         (grade_course_loop E.P dt E.u E.ecs cs s flag).2.1.grades_overview =
           s.grades_overview ∧
         (grade_course_loop E.P dt E.u E.ecs cs s flag).2.1.deadlines = s.deadlines) ∧
        ((grade_course_loop E.P dt E.u E.ecs cs s flag).2.1.grades = some E.FG ∨
          (grade_course_loop E.P dt E.u E.ecs cs s flag).2.1 = s) ∧
        ((grade_course_loop E.P dt E.u E.ecs cs s flag).2.2.2 = false → flag = false) ∧
        ((grade_course_loop E.P dt E.u E.ecs cs s flag).2.1 = s →
          (grade_course_loop E.P dt E.u E.ecs cs s flag).2.2.2 = false →
          G = E.FG ∨ ∀ c ∈ cs, noMM (tagGrades c (E.egr c.id)) G ∧
            compare_grades (tagGrades c (E.egr c.id)) G = []) := by
  intro cs
  induction cs with
  | nil =>
    intro s flag G hG
    refine ⟨rfl, ⟨rfl, rfl, rfl, rfl⟩, Or.inr rfl, fun h => h, ?_⟩
    intro _ _
    right
    intro c hc
    cases hc
  | cons c rest ih =>
    intro s flag G hG
    have hp : E.P.get_grades_by_course_id E.u.userid c.id = .ok (E.egr c.id) := rfl
    have hfetch : fetch_grades E.P E.u E.ecs = .ok E.FG := by
      rw [fetch_grades_P]
      rfl
    obtain ⟨hm1, hm2, hm3, hm4⟩ := grade_mismatch_loop_char E.P E.u E.ecs E.FG hfetch
      (tagGrades c (E.egr c.id)) G s
    simp only [grade_course_loop, hp, get_grades, hG, hm1]
    rcases hm2 with ⟨hmS, hmMM⟩ | hmU
    · rw [hmS]
      obtain ⟨ih1, ihF, ih3, ih4, ih5⟩ := ih s
        (flag || !(compare_grades (tagGrades c (E.egr c.id)) G).isEmpty) G hG
      refine ⟨ih1, ihF, ih3, ?_, ?_⟩
      · intro h
        exact (Bool.or_eq_false_iff.mp (ih4 h)).1
      · intro hs hfl
        have hor := ih4 hfl
        have hnew : (compare_grades (tagGrades c (E.egr c.id)) G).isEmpty = true := by
          have := (Bool.or_eq_false_iff.mp hor).2
          simpa using this
        have hnewnil : compare_grades (tagGrades c (E.egr c.id)) G = [] :=
          List.isEmpty_iff.mp hnew
        rcases ih5 hs hfl with hFGeq | hrest
        · exact Or.inl hFGeq
        · right
          intro c' hc'
          rcases List.mem_cons.mp hc' with rfl | hc''
          · exact ⟨hmMM, hnewnil⟩
          · exact hrest c' hc''
    · rw [hmU]
      obtain ⟨ih1, ihF, ih3, ih4, ih5⟩ := ih { s with grades := some E.FG }
        (flag || !(compare_grades (tagGrades c (E.egr c.id)) G).isEmpty) E.FG (by simp)
      refine ⟨ih1, ?_, ?_, ?_, ?_⟩
      · obtain ⟨f1, f2, f3, f4⟩ := ihF
        exact ⟨by rw [f1], by rw [f2], by rw [f3], by rw [f4]⟩
      · rcases ih3 with ih3 | ih3
        · exact Or.inl ih3
        · left
          rw [ih3]
      · intro h
        exact (Bool.or_eq_false_iff.mp (ih4 h)).1
      · intro hs hfl
        left
        rcases ih3 with ih3 | ih3
        · rw [hs] at ih3
          rw [hG] at ih3
          exact Option.some.inj ih3
        · rw [hs] at ih3
          have : s.grades = some E.FG := by
            rw [ih3]
          rw [hG] at this
          exact Option.some.inj this

/-- Pass-1 grade pipeline: from any store with a stored grade list it
succeeds, touches only the grades field, and leaves a stable grade list. -/
theorem produce_grade_char (E : ExtState) (dt : String) (s : Store) (G : List Grade)
    (hG : s.grades = some G) :
    (produce_grade E.P dt E.u E.ecs s).1 = .ok () ∧
    ((produce_grade E.P dt E.u E.ecs s).2.1.user = s.user ∧
     (produce_grade E.P dt E.u E.ecs s).2.1.courses = s.courses ∧
     (produce_grade E.P dt E.u E.ecs s).2.1.grades_overview = s.grades_overview ∧
     (produce_grade E.P dt E.u E.ecs s).2.1.deadlines = s.deadlines) ∧
    ∃ G', (produce_grade E.P dt E.u E.ecs s).2.1.grades = some G' ∧ GradeStable E G' := by
  cases hai : E.ecs.all (fun c => G.any (fun g => g.courseid == c.id))
  · -- pre-loop resync
    obtain ⟨hl1, hlF, hl3, _, hl5⟩ := grade_course_loop_char E dt E.ecs
      { s with grades := some E.FG } false E.FG (by simp)
    simp only [produce_grade, get_grades, hG, hai, Bool.false_eq_true, if_false,
      update_grades_P, hl1]
    have hgr : (grade_course_loop E.P dt E.u E.ecs E.ecs
        { s with grades := some E.FG } false).2.1.grades = some E.FG := by
      rcases hl3 with h | h
      · exact h
      · rw [h]
    cases hfl : (grade_course_loop E.P dt E.u E.ecs E.ecs
        { s with grades := some E.FG } false).2.2.2
    · simp only [Bool.false_eq_true, if_false]
      obtain ⟨f1, f2, f3, f4⟩ := hlF
      exact ⟨trivial, ⟨by rw [f1], by rw [f2], by rw [f3], by rw [f4]⟩,
        E.FG, hgr, Or.inl rfl⟩
    · simp only [if_true, update_grades_P]
      obtain ⟨f1, f2, f3, f4⟩ := hlF
      exact ⟨trivial, ⟨by simp [f1], by simp [f2], by simp [f3], by simp [f4]⟩,
        E.FG, by simp, Or.inl rfl⟩
  · -- representation check passed
    obtain ⟨hl1, hlF, hl3, hl4, hl5⟩ := grade_course_loop_char E dt E.ecs s false G hG
    simp only [produce_grade, get_grades, hG, hai, if_true, hl1]
    cases hfl : (grade_course_loop E.P dt E.u E.ecs E.ecs s false).2.2.2
    · simp only [Bool.false_eq_true, if_false]
      obtain ⟨f1, f2, f3, f4⟩ := hlF
      refine ⟨trivial, ⟨f1, f2, f3, f4⟩, ?_⟩
      rcases hl3 with h | h
      · exact ⟨E.FG, h, Or.inl rfl⟩
      · refine ⟨G, by rw [h, hG], ?_⟩
        rcases hl5 h hfl with hFGeq | hclean
        · exact Or.inl hFGeq
        · exact Or.inr ⟨hai, hclean⟩
    · simp only [if_true, update_grades_P]
      obtain ⟨f1, f2, f3, f4⟩ := hlF
      exact ⟨trivial, ⟨by simp [f1], by simp [f2], by simp [f3], by simp [f4]⟩,
        E.FG, by simp, Or.inl rfl⟩

/-- Pass-2 overview pipeline over a stable store: a strict no-op. -/
theorem produce_grade_overview_stable (E : ExtState) (dt : String) (s : Store)
    (V : List GradeOverview) (hV : s.grades_overview = some V)
    (hOV : compare_grades_overview E.FOV (sort_grades_overview V) = []) :
    produce_grade_overview E.P dt E.ecs s = (.ok (), s, []) := by
  have hf : fetch_grades_overview E.P E.ecs = .ok E.FOV := rfl
  simp only [produce_grade_overview, hf, get_grades_overview, hV, hOV]
  simp

/-- Pass-1 overview pipeline: from any store with a stored overview it
succeeds, touches only the overview field, and leaves a diff-quiet
overview. -/
theorem produce_grade_overview_char (E : ExtState) (hWF : E.WF) (dt : String) (s : Store)
    (V : List GradeOverview) (hV : s.grades_overview = some V) :
    (produce_grade_overview E.P dt E.ecs s).1 = .ok () ∧
    ((produce_grade_overview E.P dt E.ecs s).2.1.user = s.user ∧
     (produce_grade_overview E.P dt E.ecs s).2.1.courses = s.courses ∧
     (produce_grade_overview E.P dt E.ecs s).2.1.grades = s.grades ∧
     (produce_grade_overview E.P dt E.ecs s).2.1.deadlines = s.deadlines) ∧
    ∃ V', (produce_grade_overview E.P dt E.ecs s).2.1.grades_overview = some V' ∧
      compare_grades_overview E.FOV (sort_grades_overview V') = [] := by
  have hf : fetch_grades_overview E.P E.ecs = .ok E.FOV := rfl
  cases hnew : (compare_grades_overview E.FOV (sort_grades_overview V)).isEmpty
  · simp only [produce_grade_overview, hf, get_grades_overview, hV, hnew,
      Bool.false_eq_true, if_false, update_grades_overview_P]
    exact ⟨by trivial, ⟨by trivial, by trivial, by trivial, by trivial⟩,
      E.FOV, by trivial, ov_compare_FOV_nil E hWF⟩
  · simp only [produce_grade_overview, hf, get_grades_overview, hV, hnew, if_true]
    exact ⟨by trivial, ⟨by trivial, by trivial, by trivial, by trivial⟩,
      V, by trivial, List.isEmpty_iff.mp hnew⟩

/-- Pass-1/pass-2 deadline pipeline: always succeeds under the pure provider,
touches only the deadlines field, and leaves a diff-quiet deadline list. -/
theorem produce_deadline_char (E : ExtState) (dt : String) (s : Store) :
    (produce_deadline E.P dt E.NPC s).1 = .ok () ∧
    ((produce_deadline E.P dt E.NPC s).2.1.user = s.user ∧
     (produce_deadline E.P dt E.NPC s).2.1.courses = s.courses ∧
     (produce_deadline E.P dt E.NPC s).2.1.grades = s.grades ∧
     (produce_deadline E.P dt E.NPC s).2.1.grades_overview = s.grades_overview) ∧
    ∀ c ∈ E.NPC, E.edl c.id ≠ [] →
      compare_deadlines (sort_deadlines (tagDeadlines c (E.edl c.id)))
        ((produce_deadline E.P dt E.NPC s).2.1.deadlines.getD []) = [] := by
  have hspec := produce_deadline_spec E.P dt E.NPC s E.edl (fun c _ => rfl)
  rw [hspec]
  cases ha : E.NPC.any (fun c => dlNewFlag (s.deadlines.getD []) c (E.edl c.id))
  · simp only [ha, Bool.false_eq_true, if_false]
    refine ⟨by trivial, ⟨by trivial, by trivial, by trivial, by trivial⟩, ?_⟩
    intro c hc hne
    have hflag := List.any_eq_false.mp ha c hc
    rw [Bool.not_eq_true, dlNewFlag] at hflag
    rcases Bool.and_eq_false_iff.mp hflag with hl | hr
    · exfalso
      apply hne
      rw [Bool.not_eq_false'] at hl
      exact List.isEmpty_iff.mp hl
    · rw [Bool.not_eq_false'] at hr
      exact List.isEmpty_iff.mp hr
  · simp only [ha, if_true]
    refine ⟨by trivial, ⟨by trivial, by trivial, by trivial, by trivial⟩, ?_⟩
    intro c hc _
    exact dl_compare_FD_nil E c hc

/-- Pass-2 deadline pipeline over a stable store: a strict no-op. -/
theorem produce_deadline_stable (E : ExtState) (dt : String) (s : Store)
    (hDL : ∀ c ∈ E.NPC, E.edl c.id ≠ [] →
      compare_deadlines (sort_deadlines (tagDeadlines c (E.edl c.id)))
        (s.deadlines.getD []) = []) :
    produce_deadline E.P dt E.NPC s = (.ok (), s, []) := by
  have hspec := produce_deadline_spec E.P dt E.NPC s E.edl (fun c _ => rfl)
  rw [hspec]
  have ha : E.NPC.any (fun c => dlNewFlag (s.deadlines.getD []) c (E.edl c.id)) = false := by
    rw [List.any_eq_false]
    intro c hc
    rw [dlNewFlag]
    cases hne : (E.edl c.id).isEmpty
    · have hcmp := hDL c hc (by
        intro hnil
        rw [hnil] at hne
        simp at hne)
      rw [hcmp]
      simp
    · simp [hne]
  have hev : E.NPC.flatMap
      (fun c => dlNotifFor dt (s.deadlines.getD []) c (E.edl c.id)) = [] := by
    rw [List.flatMap_eq_nil_iff]
    intro c hc
    rw [dlNotifFor]
    cases hne : (E.edl c.id).isEmpty
    · have hcmp := hDL c hc (by
        intro hnil
        rw [hnil] at hne
        simp at hne)
      rw [hcmp]
      simp
    · simp [hne]
  rw [ha, hev]
  simp

/-- Pass-1 user pipeline: a successful result is the external profile and the
store then holds it, other fields untouched. -/
theorem produce_user_info_ok_char (E : ExtState) (dt : String) (s : Store)
    {v : User} {s' : Store} {ev : List Event}
    (h : produce_user_info E.P dt s = (.ok v, s', ev)) :
    v = E.u ∧ s'.user = some E.u ∧ s'.courses = s.courses ∧ s'.grades = s.grades ∧
    s'.grades_overview = s.grades_overview ∧ s'.deadlines = s.deadlines := by
  cases hsu : s.user
  · have herr : produce_user_info E.P dt s = (.error .DataIsEmpty, s, []) := by
      have hpu : E.P.get_user = .ok E.u := rfl
      simp [produce_user_info, hpu, get_user, hsu]
    rw [herr] at h
    simp at h
  · rename_i su
    have hspec := produce_user_info_spec E.P dt s E.u su rfl hsu
    rw [hspec] at h
    by_cases he : su = E.u
    · rw [if_pos he] at h
      simp only [Prod.mk.injEq, Except.ok.injEq] at h
      obtain ⟨hv, hs', _⟩ := h
      subst hs'
      exact ⟨hv.symm, by rw [hsu, he], rfl, rfl, rfl, rfl⟩
    · rw [if_neg he] at h
      simp only [Prod.mk.injEq, Except.ok.injEq] at h
      obtain ⟨hv, hs', _⟩ := h
      subst hs'
      exact ⟨hv.symm, rfl, rfl, rfl, rfl, rfl⟩

/-- Pass-1 course pipeline: a successful result is the full external list and
the store then holds a diff-quiet stored list, other fields untouched. -/
theorem produce_course_ok_char (E : ExtState) (dt : String) (s : Store)
    {v : List Course} {s' : Store} {ev : List Event}
    (h : produce_course E.P dt E.u s = (.ok v, s', ev)) :
    v = E.ecs ∧ (∃ sc', s'.courses = some sc' ∧ compare_courses E.ecs sc' = []) ∧
    s'.user = s.user ∧ s'.grades = s.grades ∧ s'.grades_overview = s.grades_overview ∧
    s'.deadlines = s.deadlines := by
  cases hsc : s.courses
  · have herr : produce_course E.P dt E.u s = (.error .DataIsEmpty, s, []) := by
      have hpc : E.P.get_courses E.u.userid = .ok E.ecs := rfl
      simp [produce_course, hpc, get_courses, hsc]
    rw [herr] at h
    simp at h
  · rename_i sc
    have hspec := produce_course_spec E.P dt E.u s E.ecs sc rfl hsc
    rw [hspec] at h
    cases hemp : (compare_courses E.ecs sc).isEmpty
    · simp only [hemp, Bool.false_eq_true, if_false, Prod.mk.injEq,
        Except.ok.injEq] at h
      obtain ⟨hv, hs', _⟩ := h
      subst hs'
      exact ⟨hv.symm, ⟨E.ecs, rfl, compare_courses_self E.ecs⟩, rfl, rfl, rfl, rfl⟩
    · simp only [hemp, if_true, Prod.mk.injEq, Except.ok.injEq] at h
      obtain ⟨hv, hs', _⟩ := h
      subst hs'
      exact ⟨hv.symm, ⟨sc, hsc, List.isEmpty_iff.mp hemp⟩, rfl, rfl, rfl, rfl⟩

/-- Snapshot state a pass over unchanged external state leaves behind: the
user profile matches, the stored course list is id-complete, the grade list is
stable, the overview is diff-quiet, and every non-past course's deadline diff
is quiet. -/
def StableStore (E : ExtState) (s : Store) : Prop :=
  s.user = some E.u ∧
  (∃ sc, s.courses = some sc ∧ compare_courses E.ecs sc = []) ∧
  (∃ G, s.grades = some G ∧ GradeStable E G) ∧
  (∃ V, s.grades_overview = some V ∧
    compare_grades_overview E.FOV (sort_grades_overview V) = []) ∧
  (∀ c ∈ E.NPC, E.edl c.id ≠ [] →
    compare_deadlines (sort_deadlines (tagDeadlines c (E.edl c.id)))
      (s.deadlines.getD []) = [])

/-- All five sub-pipeline success flags of one pass. -/
def passAllOk (r : PassResult) : Bool :=
  r.userOk && r.courseOk && r.gradeOk && r.overviewOk && r.deadlineOk

theorem notifsOf_nil : notifsOf [] = [] := rfl

theorem updsOf_nil : updsOf [] = [] := rfl

/-- A pass over a stable store emits nothing, performs only idempotent
defensive grade resyncs, and leaves the store exactly as it was. -/
theorem process_producing_stable (E : ExtState) (hWF : E.WF) (dt : String) (s : Store)
    (hS : StableStore E s) :
    (process_producing E.P dt s).store = s ∧
    notifsOf (process_producing E.P dt s).events = [] ∧
    (∀ x ∈ updsOf (process_producing E.P dt s).events, x = Upd.grades) := by
  obtain ⟨hu, ⟨sc, hsc, hcmpc⟩, ⟨G, hG, hGS⟩, ⟨V, hV, hOV⟩, hDL⟩ := hS
  have h1 : produce_user_info E.P dt s = (.ok E.u, s, []) := by
    have hspec := produce_user_info_spec E.P dt s E.u E.u rfl hu
    rw [hspec, if_pos rfl]
  have h2 : produce_course E.P dt E.u s = (.ok E.ecs, s, []) := by
    have hspec := produce_course_spec E.P dt E.u s E.ecs sc rfl hsc
    rw [hspec, hcmpc]
    simp
  obtain ⟨hg1, hg2, hg3, hg4⟩ := produce_grade_stable E hWF dt s G hG hGS
  have h4 : produce_grade_overview E.P dt E.ecs s = (.ok (), s, []) :=
    produce_grade_overview_stable E dt s V hV hOV
  have h5 : produce_deadline E.P dt (delete_past_courses E.ecs) s = (.ok (), s, []) :=
    produce_deadline_stable E dt s hDL
  simp only [process_producing, h1, h2, hg2, h4, h5]
  refine ⟨by trivial, ?_, ?_⟩
  · simp only [notifsOf_append, notifsOf_cons_ran, notifsOf_nil, hg3,
      List.append_nil, List.nil_append]
  · intro x hx
    simp only [updsOf_append, updsOf_cons_ran, updsOf_nil, List.append_nil,
      List.nil_append] at hx
    exact hg4 x hx

theorem NPC_def (E : ExtState) : delete_past_courses E.ecs = E.NPC := rfl

/-- A fully successful pass leaves a stable store, whatever store it started
from. -/
theorem pass1_stable (E : ExtState) (hWF : E.WF) (dt : String) (s : Store)
    (hOk : passAllOk (process_producing E.P dt s) = true) :
    StableStore E (process_producing E.P dt s).store := by
  rcases hres1 : produce_user_info E.P dt s with ⟨res1, s1, ev1⟩
  cases res1 with
  | error e =>
    simp only [process_producing, hres1] at hOk
    simp [passAllOk] at hOk
  | ok v =>
    obtain ⟨hv, hu1, _, _, _, _⟩ := produce_user_info_ok_char E dt s hres1
    subst hv
    rcases hres2 : produce_course E.P dt E.u s1 with ⟨res2, s2, ev2⟩
    cases res2 with
    | error e =>
      simp only [process_producing, hres1, hres2] at hOk
      simp [passAllOk] at hOk
    | ok cv =>
      obtain ⟨hcv, ⟨sc2, hsc2, hcmp2⟩, hu2, hg2, ho2, hd2⟩ :=
        produce_course_ok_char E dt s1 hres2
      subst hcv
      cases hg2' : s2.grades with
      | none =>
        have herr : produce_grade E.P dt E.u E.ecs s2 = (.error .DataIsEmpty, s2, []) := by
          simp [produce_grade, get_grades, hg2']
        simp only [process_producing, hres1, hres2, herr] at hOk
        simp [passAllOk, exOk] at hOk
      | some G2 =>
        obtain ⟨hgok, ⟨hgu, hgc, hgo, hgd⟩, G', hG', hGS⟩ :=
          produce_grade_char E dt s2 G2 hg2'
        cases hov3 : (produce_grade E.P dt E.u E.ecs s2).2.1.grades_overview with
        | none =>
          have herr : produce_grade_overview E.P dt E.ecs
              (produce_grade E.P dt E.u E.ecs s2).2.1 =
              (.error .DataIsEmpty, (produce_grade E.P dt E.u E.ecs s2).2.1, []) := by
            have hf : fetch_grades_overview E.P E.ecs = .ok E.FOV := rfl
            simp [produce_grade_overview, hf, get_grades_overview, hov3]
          simp only [process_producing, hres1, hres2, herr] at hOk
          simp [passAllOk, exOk] at hOk
        | some V3 =>
          obtain ⟨hovok, ⟨hvu, hvc, hvg, hvd⟩, V', hV', hOV'⟩ :=
            produce_grade_overview_char E hWF dt
              (produce_grade E.P dt E.u E.ecs s2).2.1 V3 hov3
          obtain ⟨hdlok, ⟨hdu, hdc, hdg, hdo⟩, hdlq⟩ :=
            produce_deadline_char E dt
              (produce_grade_overview E.P dt E.ecs
                (produce_grade E.P dt E.u E.ecs s2).2.1).2.1
          simp only [process_producing, hres1, hres2]
          rw [NPC_def]
          refine ⟨?_, ?_, ?_, ?_, ?_⟩
          · rw [hdu, hvu, hgu, hu2, hu1]
          · exact ⟨sc2, by rw [hdc, hvc, hgc]; exact hsc2, hcmp2⟩
          · exact ⟨G', by rw [hdg, hvg, hG'], hGS⟩
          · exact ⟨V', by rw [hdo, hV'], hOV'⟩
          · exact hdlq

/-- C1 (amended): with the external state unchanged between two consecutive
passes and the first pass fully successful, the second pass emits zero
notifications and does not change the store; the only snapshot-overwrite
calls it may perform are defensive grade resyncs (`update_grades`), each of
which rewrites the stored grade list with the identical value. The
well-formedness hypotheses are the spec's data-model invariants: course ids
are unique, each course's external grades carry its id with unique item
names, and the overview has one row per course. -/
theorem second_pass_idempotent (E : ExtState) (hWF : E.WF) (dt : String) (s0 : Store)
    (hOk : passAllOk (process_producing E.P dt s0) = true) :
    notifsOf (process_producing E.P dt
      (process_producing E.P dt s0).store).events = [] ∧
    (∀ x ∈ updsOf (process_producing E.P dt
      (process_producing E.P dt s0).store).events, x = Upd.grades) ∧
    (process_producing E.P dt (process_producing E.P dt s0).store).store =
      (process_producing E.P dt s0).store := by
  have hstable := pass1_stable E hWF dt s0 hOk
  obtain ⟨h1, h2, h3⟩ :=
    process_producing_stable E hWF dt (process_producing E.P dt s0).store hstable
  exact ⟨h2, h3, h1⟩

/-- External state of the idempotence counterexample: one non-past course
with zero external grades, one overview row, no deadlines. -/
def cexE : ExtState :=
  { u := wUser
    ecs := [wCourse]
    egr := fun _ => []
    eov := [{ courseid := 1, course_name := none, grade := "A" }]
    edl := fun _ => [] }

/-- Snapshot the counterexample account already holds: everything in sync
with the external state. -/
def cexStore : Store :=
  { registered := true
    user := some wUser
    courses := some [wCourse]
    grades := some []
    grades_overview := some [{ courseid := 1, course_name := some "Algebra", grade := "A" }]
    deadlines := some [] }

/-- Counterexample for C1 as stated: the first pass completes successfully
and the external state is unchanged, yet the second pass still performs an
`update_grades` snapshot overwrite — the zero-grade course keeps the
defensive resync firing on every pass — so "zero snapshot overwrites" fails
(the zero-notifications half does hold). -/
theorem second_pass_counterexample :
    passAllOk (process_producing cexE.P "d" cexStore) = true ∧
    notifsOf (process_producing cexE.P "d"
      (process_producing cexE.P "d" cexStore).store).events = [] ∧
    updsOf (process_producing cexE.P "d"
      (process_producing cexE.P "d" cexStore).store).events = [Upd.grades] ∧
    ([Upd.grades] : List Upd) ≠ [] := by
  exact ⟨rfl, rfl, rfl, by decide⟩

/-- Witness for C1's amended statement at the counterexample input. -/
theorem second_pass_idempotent_witness :
    notifsOf (process_producing cexE.P "d"
      (process_producing cexE.P "d" cexStore).store).events = [] ∧
    (∀ x ∈ updsOf (process_producing cexE.P "d"
      (process_producing cexE.P "d" cexStore).store).events, x = Upd.grades) ∧
    (process_producing cexE.P "d" (process_producing cexE.P "d" cexStore).store).store =
      (process_producing cexE.P "d" cexStore).store := by
  exact second_pass_idempotent cexE
    ⟨by decide, by decide, by decide, by decide⟩ "d" cexStore rfl
